import Mathlib

/-!
# A shallow embedding of the Nutmeg tokenizer (Go package `tokenizer`)

This file embeds the core of the Nutmeg tokenizer: the token data model
(`token.go`), the rule tables (`rules.go`), the cursor and driver
(`tokenizer.go`) and the string machinery (`strings.go`), and proves
properties of the embedding.

Modelling conventions:

* Go strings are modelled as `List Char` (the sequence of runes of a valid
  UTF-8 string).  The Go code always advances the byte position by the byte
  length of a whole-rune prefix, so positions are modelled as rune indices.
  Go's `advance` walks bytes and bumps the column once per byte (resetting on
  a `'\n'` byte); on a whole rune this adds the rune's UTF-8 byte width to
  the column (no byte of a multi-byte rune equals `'\n'`), which is what the
  model does via `Char.utf8Size`.  Where the Go code adds a byte length to a
  column (`t.column + len(text)`) the model adds the UTF-8 byte size.
* Go `int` line/column values are modelled as `Int` (the code stores `-1`
  placeholders in spans before overwriting them).
* Go maps are modelled as association lists; iteration order only affects
  which conflict is reported first, never the table contents.
* Go loops whose body consumes input are modelled with a fuel parameter so
  that every definition is structurally recursive and kernel-computable; call
  sites pass `input.length + 1`, which exceeds the number of iterations any
  of these loops can make (each iteration consumes at least one rune).
* A Go `panic` (the `CustomPrefix` branch of `matchCustomRules` casts the
  `nil` rule payload stored by `BuildTokenLookup`) is modelled by a
  distinguished `crash` result that aborts the run without producing output.
-/

namespace Nutmeg

/-- Go: `type Arity int` with constants `Zero`, `One`, `Many`. -/
inductive Arity where
  | zero
  | one
  | many
deriving DecidableEq

/-- Go: `type Position struct { Line, Col int }`. -/
structure Position where
  line : Int
  col : Int
deriving DecidableEq

/-- Go: `type Span struct { Start, End Position }` (`End` is renamed `stop`). -/
structure Span where
  start : Position
  stop : Position
deriving DecidableEq

/-- Go: `type TokenType string` with its single-letter constants.  The `[`
and `]` token types are named `openDelim` and `closeDelim`. -/
inductive TokenType where
  | n | s | m | i | e
  | S | E | B | P | V
  | O | openDelim | closeDelim | M | U | X
deriving DecidableEq

/-- The fields of Go's `Token` struct, parameterised by the type of the
`Subtokens` entries so that `Token` below can tie the knot.  Defaults are the
Go zero values (empty string, `nil` pointers and slices). -/
structure TokenData (Sub : Type) where
  text : String := ""
  type : TokenType
  span : Span := ⟨⟨0, 0⟩, ⟨0, 0⟩⟩
  aliasName : Option String := none
  quote : String := ""
  value : Option String := none
  specifier : Option String := none
  subtokens : List Sub := []
  radix : Option String := none
  base : Option Int := none
  mantissa : Option String := none
  fraction : Option String := none
  exponent : Option Int := none
  balanced : Option Bool := none
  expecting : Option (List String) := none
  inn : Option (List String) := none
  closedBy : Option (List String) := none
  arity : Option Arity := none
  precedence : Option (Int × Int × Int) := none
  infixPrecedence : Option Int := none
  prefixFlag : Option Bool := none
  reason : Option String := none
  lnBefore : Option Bool := none
  lnAfter : Option Bool := none

/-- Go: `type Token struct {...}` with `Subtokens []*Token`. -/
inductive Token where
  | mk (data : TokenData Token)

/-- The field record of a token. -/
def Token.data : Token → TokenData Token
  | .mk d => d

/-- Rebuild a token with an updated field record. -/
def Token.modify (tk : Token) (f : TokenData Token → TokenData Token) : Token :=
  .mk (f tk.data)

def Token.text (tk : Token) : String := tk.data.text

def Token.type (tk : Token) : TokenType := tk.data.type

def Token.span (tk : Token) : Span := tk.data.span

def Token.aliasOf (tk : Token) : Option String := tk.data.aliasName

def Token.valueOf (tk : Token) : Option String := tk.data.value

def Token.reasonOf (tk : Token) : Option String := tk.data.reason

def Token.subtokens (tk : Token) : List Token := tk.data.subtokens

/-- Go: `StartTokenData` (tokenizer.go) — payload of a start rule. -/
structure StartTokenData where
  expecting : List String
  closedBy : List String
  arity : Arity
deriving DecidableEq

/-- Go: `BridgeTokenData` (tokenizer.go) — payload of a bridge rule
(`In` is renamed `inn`). -/
structure BridgeTokenData where
  expecting : List String
  inn : List String
  arity : Arity
deriving DecidableEq

/-- Go: `DelimiterProp` (rules.go); `Prefix` is renamed `isPrefix`. -/
structure DelimiterProp where
  infixPrec : Int
  isPrefix : Bool
deriving DecidableEq

/-- Go: `CustomRuleType` constants in rules.go. -/
inductive CustomRuleType where
  | customWildcard
  | customStart
  | customEnd
  | customBridge
  | customPrefix
  | customOperator
  | customOpenDelimiter
  | customCloseDelimiter
  | customMark
deriving DecidableEq

/-- The `Data interface{}` payload of a `CustomRuleEntry`.  `noData` stands
for Go's `nil`; `delimD` is the anonymous struct stored for brackets. -/
inductive RuleData where
  | noData
  | startD (d : StartTokenData)
  | bridgeD (d : BridgeTokenData)
  | opD (p : Int × Int × Int)
  | delimD (closedBy : List String) (infixPrec : Int) (isPrefix : Bool)
deriving DecidableEq

/-- Go: `CustomRuleEntry` (rules.go). -/
structure CustomRuleEntry where
  type : CustomRuleType
  data : RuleData
deriving DecidableEq

/-- Go: `TokenizerRules` (rules.go); each map is an association list. -/
structure TokenizerRules where
  startTokens : List (String × StartTokenData)
  bridgeTokens : List (String × BridgeTokenData)
  prefixTokens : List String
  delimiterMappings : List (String × List String)
  delimiterProperties : List (String × DelimiterProp)
  wildcardTokens : List String
  operatorPrecedences : List (String × (Int × Int × Int))
  markTokens : List String
  tokenLookup : List (String × CustomRuleEntry)

/-- Association-list lookup, the model of a Go map read. -/
def lookupAL {α : Type} (l : List (String × α)) (k : String) : Option α :=
  (l.find? (fun p => p.1 = k)).map (·.2)

/-- Association-list insert-or-replace, the model of a Go map write. -/
def insertAL {α : Type} (l : List (String × α)) (k : String) (v : α) :
    List (String × α) :=
  match l with
  | [] => [(k, v)]
  | (k', v') :: rest =>
    if k' = k then (k, v) :: rest else (k', v') :: insertAL rest k v

/-- Go: `baseOperatorPrecedence` map in tokenizer.go. -/
def baseOperatorPrecedence (c : Char) : Option Int :=
  match c with
  | '.' => some 10
  | '(' => some 20
  | '[' => some 30
  | '{' => some 40
  | '*' => some 50
  | '/' => some 60
  | '%' => some 70
  | '+' => some 80
  | '-' => some 90
  | '<' => some 100
  | '>' => some 110
  | '~' => some 120
  | '!' => some 130
  | '&' => some 140
  | '^' => some 150
  | '|' => some 160
  | '?' => some 170
  | '=' => some 180
  | ':' => some 190
  | _ => none

/-- Go: `calculateOperatorPrecedence` (rules.go).  The Go code indexes the
first and second bytes of the operator; all rule-table operators are ASCII,
so these are the first and second runes. -/
def calculateOperatorPrecedence (operator : String) : Int × Int × Int :=
  match operator.toList with
  | [] => (0, 0, 0)
  | firstChar :: rest =>
    let basePrecedence :=
      match baseOperatorPrecedence firstChar with
      | some b => b
      | none => 1000
    let basePrecedence :=
      match rest with
      | c2 :: _ => if c2 = firstChar then basePrecedence - 1 else basePrecedence
      | [] => basePrecedence
    if operator = "-" ∨ operator = "+" then
      (basePrecedence, basePrecedence + 2000, 0)
    else
      (0, basePrecedence + 2000, 0)

/-- Go: `updateOperatorPrecedence` (rules.go). -/
def updateOperatorPrecedence (m : List (String × (Int × Int × Int)))
    (operator : String) : List (String × (Int × Int × Int)) :=
  insertAL m operator (calculateOperatorPrecedence operator)

/-- Go: `getDefaultOperatorPrecedences` (rules.go). -/
def getDefaultOperatorPrecedences : List (String × (Int × Int × Int)) :=
  let m : List (String × (Int × Int × Int)) := []
  let m := updateOperatorPrecedence m "."
  let m := updateOperatorPrecedence m "*"
  let m := updateOperatorPrecedence m "/"
  let m := updateOperatorPrecedence m "+"
  let m := updateOperatorPrecedence m "-"
  let m := updateOperatorPrecedence m "<"
  let m := updateOperatorPrecedence m ">"
  let m := updateOperatorPrecedence m "<="
  let m := updateOperatorPrecedence m ">="
  let m := updateOperatorPrecedence m "=="
  let m := updateOperatorPrecedence m "..<"
  let m := updateOperatorPrecedence m "..="
  let m := updateOperatorPrecedence m ":="
  let m := updateOperatorPrecedence m "<-"
  let m := updateOperatorPrecedence m "<--"
  insertAL m "in" (0, 3000, 0)

/-- Go: `getDefaultStartTokens` (rules.go). -/
def getDefaultStartTokens : List (String × StartTokenData) :=
  [ ("def", ⟨["=>>"], ["end", "enddef"], .one⟩),
    ("let", ⟨[], ["end", "endlet"], .many⟩),
    ("switch", ⟨["case", "else"], ["end", "endswitch"], .one⟩),
    ("if", ⟨["then"], ["end", "endif"], .one⟩),
    ("ifnot", ⟨["then"], ["end", "endifnot"], .one⟩),
    ("fn", ⟨["=>>"], ["end", "endfn"], .one⟩),
    ("class", ⟨[], ["end", "endclass"], .one⟩),
    ("for", ⟨["do"], ["end", "endfor"], .one⟩),
    ("try", ⟨["catch", "else"], ["end", "endtry"], .many⟩),
    ("transaction", ⟨["catch", "else"], ["end", "endtransaction"], .many⟩) ]

/-- Go: `getDefaultBridgeTokens` (rules.go). -/
def getDefaultBridgeTokens : List (String × BridgeTokenData) :=
  [ ("case", ⟨["then"], ["switch"], .one⟩),
    ("=>>", ⟨["end", "enddef", "endfn"], ["def"], .many⟩),
    ("do", ⟨["end", "endfor"], ["def", "for"], .many⟩),
    ("then", ⟨["case", "elseif", "else", "end", "endif", "endifnot",
               "endswitch", "endcase"], ["if", "ifnot", "switch"], .many⟩),
    ("elseif", ⟨["then"], ["if", "ifnot"], .one⟩),
    ("elseifnot", ⟨["then"], ["if", "ifnot"], .many⟩),
    ("else", ⟨["end", "endif", "endifnot", "endswitch", "endcase"],
              ["if", "ifnot", "switch"], .many⟩),
    ("endcase", ⟨["end", "endswitch"], ["switch"], .zero⟩),
    ("catch", ⟨[], ["try"], .one⟩) ]

/-- Go: `getDefaultPrefixTokens` (rules.go). -/
def getDefaultPrefixTokens : List String :=
  ["return", "yield", "const", "var", "val"]

/-- Go: `getDefaultDelimiterMappings` (rules.go). -/
def getDefaultDelimiterMappings : List (String × List String) :=
  [("(", [")"]), ("[", ["]"]), ("\x7b", ["\x7d"])]

/-- Go: `getDefaultDelimiterProperties` (rules.go). -/
def getDefaultDelimiterProperties : List (String × DelimiterProp) :=
  let a := (calculateOperatorPrecedence "(").2.1
  let b := (calculateOperatorPrecedence "[").2.1
  let c := (calculateOperatorPrecedence "\x7b").2.1
  [("(", ⟨a, true⟩), ("[", ⟨b, true⟩), ("\x7b", ⟨c, true⟩)]

/-- Go: `getDefaultWildcardTokens` (rules.go). -/
def getDefaultWildcardTokens : List String := [":"]

/-- The state threaded through `BuildTokenLookup`: the `tokenSources`
conflict-tracking map and the lookup map under construction. -/
structure LookupBuild where
  sources : List (String × String)
  lookup : List (String × CustomRuleEntry)

/-- Go: the `addToken` closure inside `BuildTokenLookup`: record the token,
or report a conflict when another rule kind already defined it. -/
def addLookupToken (b : LookupBuild) (token : String) (ruleType : CustomRuleType)
    (ruleTypeName : String) (data : RuleData) : Except String LookupBuild :=
  match lookupAL b.sources token with
  | some existingSource =>
    .error ("token '" ++ token ++ "' is defined in both " ++ existingSource ++
            " and " ++ ruleTypeName ++ " rules")
  | none =>
    .ok ⟨insertAL b.sources token ruleTypeName,
         insertAL b.lookup token ⟨ruleType, data⟩⟩

/-- Fold `addLookupToken` over one category of rules. -/
def addLookupTokens (b : Except String LookupBuild)
    (items : List (String × CustomRuleType × String × RuleData)) :
    Except String LookupBuild :=
  items.foldl
    (fun acc it =>
      match acc with
      | .error e => .error e
      | .ok b' => addLookupToken b' it.1 it.2.1 it.2.2.1 it.2.2.2)
    b

/-- Go: `BuildTokenLookup` (rules.go).  Close-delimiter and end entries are
derived from the `closed_by` lists and written without conflict checking. -/
def buildTokenLookup (rules : TokenizerRules) :
    Except String (List (String × CustomRuleEntry)) :=
  let b : Except String LookupBuild := .ok ⟨[], []⟩
  let b := addLookupTokens b
    (rules.wildcardTokens.map fun tk =>
      (tk, .customWildcard, "wildcard", .noData))
  let b := addLookupTokens b
    (rules.startTokens.map fun p =>
      (p.1, .customStart, "start", .startD p.2))
  let b := addLookupTokens b
    (rules.bridgeTokens.map fun p =>
      (p.1, .customBridge, "bridge", .bridgeD p.2))
  let b := addLookupTokens b
    (rules.prefixTokens.map fun tk =>
      (tk, .customPrefix, "prefix", .noData))
  let b := addLookupTokens b
    (rules.markTokens.map fun tk =>
      (tk, .customMark, "mark", .noData))
  let b := addLookupTokens b
    (rules.operatorPrecedences.map fun p =>
      (p.1, .customOperator, "operator", .opD p.2))
  let b := addLookupTokens b
    (rules.delimiterMappings.map fun p =>
      let props := (lookupAL rules.delimiterProperties p.1).getD ⟨0, false⟩
      (p.1, .customOpenDelimiter, "bracket",
       .delimD p.2 props.infixPrec props.isPrefix))
  match b with
  | .error e => .error e
  | .ok b' =>
    -- Close delimiters, derived from bracket closed_by lists (no conflict
    -- check in the Go code: the map entry is overwritten).
    let lk := rules.delimiterMappings.foldl
      (fun lk p =>
        p.2.foldl
          (fun lk closer => insertAL lk closer ⟨.customCloseDelimiter, .noData⟩)
          lk)
      b'.lookup
    -- End tokens, derived from start closed_by lists (again no conflict
    -- check).
    let lk := rules.startTokens.foldl
      (fun lk p =>
        p.2.closedBy.foldl
          (fun lk endToken => insertAL lk endToken ⟨.customEnd, .noData⟩)
          lk)
      lk
    .ok lk

/-- Go: `DefaultRules` (rules.go).  The Go code panics if the default rules
conflict; they do not, so the error branch below is dead. -/
def defaultRules : TokenizerRules :=
  let core : TokenizerRules :=
    { startTokens := getDefaultStartTokens
      bridgeTokens := getDefaultBridgeTokens
      prefixTokens := getDefaultPrefixTokens
      delimiterMappings := getDefaultDelimiterMappings
      delimiterProperties := getDefaultDelimiterProperties
      wildcardTokens := getDefaultWildcardTokens
      operatorPrecedences := getDefaultOperatorPrecedences
      markTokens := [",", ";"]
      tokenLookup := [] }
  match buildTokenLookup core with
  | .ok lk => { core with tokenLookup := lk }
  | .error _ => core

/-- Go: the `Tokenizer` struct (tokenizer.go).  The three parallel mark
stacks (`markStack`, `lineNoStack`, `lineColStack`) are one list of triples.
The expectation stack keeps its top at the head of the list (Go appends at
the end of a slice); depth and top operations are preserved. -/
structure Tokenizer where
  input : List Char
  pos : Nat
  line : Int
  col : Int
  markStack : List (Nat × Int × Int)
  tokens : List Token
  expectingStack : List (List String)
  rules : TokenizerRules

/-- Go: `NewTokenizerWithRules` (tokenizer.go). -/
def newTokenizerWithRules (input : String) (rules : TokenizerRules) : Tokenizer :=
  { input := input.toList
    pos := 0
    line := 1
    col := 1
    markStack := []
    tokens := []
    expectingStack := []
    rules := rules }

/-- Go: `NewTokenizer` (tokenizer.go). -/
def newTokenizer (input : String) : Tokenizer :=
  newTokenizerWithRules input defaultRules

/-- Go: `pushExpecting`. -/
def Tokenizer.pushExpecting (t : Tokenizer) (expected : List String) : Tokenizer :=
  { t with expectingStack := expected :: t.expectingStack }

/-- Go: `popExpecting` (a no-op on an empty stack). -/
def Tokenizer.popExpecting (t : Tokenizer) : Tokenizer :=
  match t.expectingStack with
  | [] => t
  | _ :: rest => { t with expectingStack := rest }

/-- Go: `replaceExpecting` (a no-op on an empty stack). -/
def Tokenizer.replaceExpecting (t : Tokenizer) (expected : List String) : Tokenizer :=
  match t.expectingStack with
  | [] => t
  | _ :: rest => { t with expectingStack := expected :: rest }

/-- Go: `getCurrentlyExpected` (`nil` on an empty stack is `none`). -/
def Tokenizer.getCurrentlyExpected (t : Tokenizer) : Option (List String) :=
  t.expectingStack.head?

/-- The unconsumed input, Go's `t.input[t.position:]`. -/
def Tokenizer.charsFrom (t : Tokenizer) : List Char :=
  t.input.drop t.pos

/-- Go: `hasMoreInput`. -/
def Tokenizer.hasMoreInput (t : Tokenizer) : Bool :=
  t.pos < t.input.length

/-- Go: `peek` (the `ok` flag is the `Option`; a valid-UTF-8 input never
decodes to `RuneError`). -/
def Tokenizer.peek (t : Tokenizer) : Option Char :=
  t.input.get? t.pos

/-- Go: `advance(n)`, per rune: a byte-wise walk over whole runes adds the
rune's UTF-8 width to the column, except that `'\n'` resets the column to 1
and bumps the line; the walk stops at the end of the input. -/
def Tokenizer.advance (t : Tokenizer) : Nat → Tokenizer
  | 0 => t
  | n + 1 =>
    match t.input.get? t.pos with
    | none => t
    | some c =>
      Tokenizer.advance
        { t with
          pos := t.pos + 1
          line := if c = '\n' then t.line + 1 else t.line
          col := if c = '\n' then 1 else t.col + c.utf8Size }
        n

/-- Go: `consume` (at the end of input it returns rune 0 and stays put). -/
def Tokenizer.consume (t : Tokenizer) : Char × Tokenizer :=
  match t.peek with
  | none => (Char.ofNat 0, t)
  | some c => (c, t.advance 1)

/-- Go: `peekN(n)`: the n-th rune from the current position (1-based); with
`n = 0` the Go loop body never runs and rune 0 is returned. -/
def Tokenizer.peekN (t : Tokenizer) (n : Nat) : Option Char :=
  match n with
  | 0 => some (Char.ofNat 0)
  | m + 1 => t.input.get? (t.pos + m)

/-- Go: `isOpeningQuoteChar`. -/
def isOpeningQuoteChar (r : Char) : Bool :=
  r = '\'' ∨ r = '"' ∨ r = '`' ∨ r = '«'

/-- Go: `isClosingQuoteChar`. -/
def isClosingQuoteChar (r : Char) : Bool :=
  r = '\'' ∨ r = '"' ∨ r = '`' ∨ r = '»'

/-- Go: `tryPeekTripleQuotes`. -/
def Tokenizer.tryPeekTripleQuotes (t : Tokenizer) (isOpening : Bool) : Option Char :=
  match t.peek with
  | none => none
  | some r1 =>
    if isOpening ∧ ¬ isOpeningQuoteChar r1 then none
    else if ¬ isOpening ∧ ¬ isClosingQuoteChar r1 then none
    else
      match t.peekN 2, t.peekN 3 with
      | some r2, some r3 => if r2 = r1 ∧ r3 = r1 then some r1 else none
      | _, _ => none

/-- Go: `tryReadTripleQuotes`: peek, and on success consume all three. -/
def Tokenizer.tryReadTripleQuotes (t : Tokenizer) (isOpening : Bool) :
    Option Char × Tokenizer :=
  match t.tryPeekTripleQuotes isOpening with
  | none => (none, t)
  | some r => (some r, ((t.consume.2).consume.2).consume.2)

/-- Go: `markPosition`: push position, line and column. -/
def Tokenizer.markPosition (t : Tokenizer) : Tokenizer :=
  { t with markStack := (t.pos, t.line, t.col) :: t.markStack }

/-- Go: `resetPosition`: pop the last mark and restore it (no-op when the
mark stack is empty). -/
def Tokenizer.resetPosition (t : Tokenizer) : Tokenizer :=
  match t.markStack with
  | [] => t
  | (p, ln, cl) :: rest =>
    { t with pos := p, line := ln, col := cl, markStack := rest }

/-- Go: `popMark`: pop the last mark and return the substring between it and
the current position (without restoring line state). -/
def Tokenizer.popMark (t : Tokenizer) : String × Tokenizer :=
  match t.markStack with
  | [] => ("", t)
  | (start, _, _) :: rest =>
    (((t.input.drop start).take (t.pos - start)).asString,
     { t with markStack := rest })

/-- Go's `unicode.IsSpace`: the Unicode `White_Space` runes. -/
def goIsSpace (c : Char) : Bool :=
  c = ' ' ∨ c = '\t' ∨ c = '\n' ∨ c = '\u000B' ∨ c = '\u000C' ∨ c = '\r' ∨
  c = '\u0085' ∨ c = '\u00A0' ∨ c = '\u1680' ∨
  ('\u2000' ≤ c ∧ c ≤ '\u200A') ∨
  c = '\u2028' ∨ c = '\u2029' ∨ c = '\u202F' ∨ c = '\u205F' ∨ c = '\u3000'

/-- Go: `tryConsumeRune(char)`. -/
def Tokenizer.tryConsumeRune (t : Tokenizer) (char : Char) : Bool × Tokenizer :=
  match t.peek with
  | none => (false, t)
  | some r => if r = char then (true, t.consume.2) else (false, t)

/-- Go: `tryConsumeNewline`: consume `'\r'` (and a following `'\n'`), or a
bare `'\n'`. -/
def Tokenizer.tryConsumeNewline (t : Tokenizer) : Bool × Tokenizer :=
  if t.peek = some '\r' then
    let t := t.consume.2
    if t.peek = some '\n' then (true, t.consume.2) else (true, t)
  else if t.peek = some '\n' then
    (true, t.consume.2)
  else
    (false, t)

/-- Go: `readRestOfLine`: the runes up to a newline (or the end of input),
with the line terminator consumed but not returned. -/
def Tokenizer.readRestOfLine (t : Tokenizer) : String × Tokenizer :=
  let text := t.charsFrom.takeWhile (fun r => ¬ (r = '\n' ∨ r = '\r'))
  let t := t.advance text.length
  (text.asString, (t.tryConsumeNewline).2)

/-- Go: `tryConsumeText(text)`: when the remaining input starts with `text`,
consume that many runes. -/
def Tokenizer.tryConsumeText (t : Tokenizer) (text : String) : Bool × Tokenizer :=
  if text.toList.isPrefixOf t.charsFrom then
    (true, t.advance text.toList.length)
  else
    (false, t)

/-- Go: `skipSpacesUpToNewline`: consume whitespace runes other than line
terminators. -/
def Tokenizer.skipSpacesUpToNewline (t : Tokenizer) : Tokenizer :=
  let run := t.charsFrom.takeWhile
    (fun r => ¬ (r = '\n' ∨ r = '\r') ∧ goIsSpace r)
  t.advance run.length

/-- The rune loop of Go's `textIsWhitespaceFollowedBy3Quotes`. -/
def textIsWs3QuotesGo (quote : Char) (cs : List Char) (indent : List Char)
    (whitespace : Bool) (count : Nat) : Bool × String :=
  match cs with
  | [] => (false, "")
  | r :: rest =>
    if whitespace then
      if goIsSpace r then textIsWs3QuotesGo quote rest (indent ++ [r]) true count
      else if r = quote then textIsWs3QuotesGo quote rest indent false (count + 1)
      else (false, "")
    else
      if r = quote then
        if count + 1 ≥ 3 then (true, indent.asString)
        else textIsWs3QuotesGo quote rest indent false (count + 1)
      else (false, "")

/-- Go: `textIsWhitespaceFollowedBy3Quotes`: does `text` consist of
whitespace followed by three `quote` runes; if so, return that whitespace
(the closing indent).  The Go length guard counts bytes. -/
def textIsWhitespaceFollowedBy3Quotes (text : String) (quote : Char) :
    Bool × String :=
  if text.utf8ByteSize < 3 then (false, "")
  else textIsWs3QuotesGo quote text.toList [] true 0

/-- The UTF-8 byte length of a string, Go's `len(text)`. -/
def byteLen (s : String) : Int :=
  Int.ofNat s.utf8ByteSize

/-- Characters of the Go operator regex `^[.\*/%\+\-<>~!&^|?=:$]+`. -/
def isOpChar (c : Char) : Bool :=
  c = '.' ∨ c = '*' ∨ c = '/' ∨ c = '%' ∨ c = '+' ∨ c = '-' ∨ c = '<' ∨
  c = '>' ∨ c = '~' ∨ c = '!' ∨ c = '&' ∨ c = '^' ∨ c = '|' ∨ c = '?' ∨
  c = '=' ∨ c = ':' ∨ c = '$'

/-- First character of the identifier regex `^[a-zA-Z_][a-zA-Z0-9_]*`. -/
def isIdentStart (c : Char) : Bool :=
  c.isAlpha ∨ c = '_'

/-- Continuation characters of the identifier regex. -/
def isIdentCont (c : Char) : Bool :=
  c.isAlpha ∨ c.isDigit ∨ c = '_'

/-- Go: `identifierRegex.FindString` at the start of `cs` (empty when there
is no match). -/
def identifierMatch (cs : List Char) : List Char :=
  match cs with
  | c :: rest => if isIdentStart c then c :: rest.takeWhile isIdentCont else []
  | [] => []

/-- Go: `operatorRegex.FindString` at the start of `cs`. -/
def operatorMatch (cs : List Char) : List Char :=
  cs.takeWhile isOpChar

/-- Go: `commentRegex.FindString` for `^###.*` (`.` matches any rune except
`'\n'`, so a `'\r'` belongs to the comment). -/
def commentMatch (cs : List Char) : List Char :=
  match cs with
  | '#' :: '#' :: '#' :: rest =>
    '#' :: '#' :: '#' :: rest.takeWhile (fun c => ¬ c = '\n')
  | _ => []

/-- The runes matched by a regex fragment `(?:_p+)*`: greedy repetitions of
an underscore followed by a nonempty `p`-run; an underscore not followed by a
`p`-character is left unconsumed (the repetition backtracks). -/
def underscoreRunF (p : Char → Bool) : Nat → List Char → List Char
  | 0, _ => []
  | fuel + 1, cs =>
    match cs with
    | '_' :: rest =>
      let ds := rest.takeWhile p
      if ds.isEmpty then []
      else '_' :: ds ++ underscoreRunF p fuel (rest.drop ds.length)
    | _ => []

/-- `underscoreRunF` with enough fuel for its input. -/
def underscoreRun (p : Char → Bool) (cs : List Char) : List Char :=
  underscoreRunF p cs.length cs

/-- The regex character class `[0-9A-Z]` of the radix number pattern. -/
def isUpperHexDigit (c : Char) : Bool :=
  c.isDigit ∨ ('A' ≤ c ∧ c ≤ 'Z')

/-- The submatches of Go's `decimalRegex`
`^(\d+(?:_\d+)*)(\.\d*(?:_\d+)*)?(?:e([+-]?\d+))?`:
`mantissa` is group 1, `fracGroup` group 2 with its leading dot (empty when
absent), `expGroup` group 3 (empty when absent). -/
structure DecMatch where
  mantissa : List Char
  fracGroup : List Char
  expGroup : List Char
deriving DecidableEq

/-- Go's `match[0]` for a decimal match: the full consumed prefix. -/
def DecMatch.full (m : DecMatch) : List Char :=
  m.mantissa ++ m.fracGroup ++ (if m.expGroup.isEmpty then [] else 'e' :: m.expGroup)

/-- The regex fragment `(?:e([+-]?\d+))?` applied at `cs`: the group-3 runes,
empty when the fragment does not match (an `e` without digits is not
consumed). -/
def exponentGroupMatch (cs : List Char) : List Char :=
  match cs with
  | 'e' :: r5 =>
    let signAndRest : List Char × List Char :=
      match r5 with
      | '+' :: r => (['+'], r)
      | '-' :: r => (['-'], r)
      | r => ([], r)
    let ds := signAndRest.2.takeWhile Char.isDigit
    if ds.isEmpty then [] else signAndRest.1 ++ ds
  | _ => []

/-- Go: `decimalRegex.FindStringSubmatch` at the start of `cs`. -/
def decimalRegexMatch (cs : List Char) : Option DecMatch :=
  let ds := cs.takeWhile Char.isDigit
  if ds.isEmpty then none
  else
    let r1 := cs.drop ds.length
    let u1 := underscoreRun Char.isDigit r1
    let mant := ds ++ u1
    let r2 := r1.drop u1.length
    let fr : List Char :=
      match r2 with
      | '.' :: r3 =>
        let fd := r3.takeWhile Char.isDigit
        let uf := underscoreRun Char.isDigit (r3.drop fd.length)
        '.' :: fd ++ uf
      | _ => []
    let r4 := r2.drop fr.length
    some ⟨mant, fr, exponentGroupMatch r4⟩

/-- The submatches of Go's `radixRegex`
`^(\d+[xobtr])([0-9A-Z]+(?:_[0-9A-Z]+)*)(\.[0-9A-Z]*(?:_[0-9A-Z]+)*)?(?:e([+-]?\d+))?`. -/
structure RadixMatch where
  radixPart : List Char
  mantissa : List Char
  fracGroup : List Char
  expGroup : List Char
deriving DecidableEq

/-- Go's `match[0]` for a radix match: the full consumed prefix. -/
def RadixMatch.full (m : RadixMatch) : List Char :=
  m.radixPart ++ m.mantissa ++ m.fracGroup ++
    (if m.expGroup.isEmpty then [] else 'e' :: m.expGroup)

/-- Go: `radixRegex.FindStringSubmatch` at the start of `cs`. -/
def radixRegexMatch (cs : List Char) : Option RadixMatch :=
  let ds := cs.takeWhile Char.isDigit
  if ds.isEmpty then none
  else
    match cs.drop ds.length with
    | c :: r1 =>
      if c = 'x' ∨ c = 'o' ∨ c = 'b' ∨ c = 't' ∨ c = 'r' then
        let hs := r1.takeWhile isUpperHexDigit
        if hs.isEmpty then none
        else
          let u1 := underscoreRun isUpperHexDigit (r1.drop hs.length)
          let mant := hs ++ u1
          let r2 := (r1.drop hs.length).drop u1.length
          let fr : List Char :=
            match r2 with
            | '.' :: r3 =>
              let fd := r3.takeWhile isUpperHexDigit
              let uf := underscoreRun isUpperHexDigit (r3.drop fd.length)
              '.' :: fd ++ uf
            | _ => []
          let r4 := r2.drop fr.length
          some ⟨ds ++ [c], mant, fr, exponentGroupMatch r4⟩
      else none
    | [] => none

/-- Go's `strings.ReplaceAll(s, "_", "")`. -/
def stripUnderscores (s : String) : String :=
  (s.toList.filter (fun c => ¬ c = '_')).asString

/-- Wrap an integer into Go's 64-bit `int` (two's-complement wrap-around). -/
def wrap64 (v : Int) : Int :=
  ((v + 2 ^ 63) % 2 ^ 64) - 2 ^ 63

/-- Go: `strconv.Atoi`: an optional sign followed by a nonempty digit run;
`none` on a syntax error or a value outside the 64-bit `int` range. -/
def atoi (cs : List Char) : Option Int :=
  let signAndDigits : Bool × List Char :=
    match cs with
    | '+' :: r => (false, r)
    | '-' :: r => (true, r)
    | r => (false, r)
  let ds := signAndDigits.2
  if ds.isEmpty ∨ ¬ ds.all Char.isDigit then none
  else
    let v : Int := ds.foldl (fun a c => a * 10 + (Int.ofNat c.toNat - 48)) 0
    let v := if signAndDigits.1 then -v else v
    if v < -(2 ^ 63) ∨ v > 2 ^ 63 - 1 then none else some v

/-- Go: `NewToken` (token.go). -/
def NewToken (text : String) (tokenType : TokenType) (span : Span) : Token :=
  .mk { text := text, type := tokenType, span := span }

/-- Go: `SetQuote` (token.go). -/
def Token.setQuote (tk : Token) (r : Char) : Token :=
  tk.modify fun d =>
    { d with quote :=
        match r with
        | '\'' => "single"
        | '"' => "double"
        | '`' => "backtick"
        | _ => String.singleton r }

/-- Go: `NewStringToken` (token.go). -/
def NewStringToken (text value : String) (span : Span) : Token :=
  .mk { text := text, type := .s, span := span, value := some value }

/-- Go: `NewMultiLineStringToken` (token.go). -/
def NewMultiLineStringToken (text value : String) (span : Span) : Token :=
  .mk { text := text, type := .m, span := span, value := some value }

/-- Go: `NewInterpolatedStringToken` (token.go); note that it stores the
plain string-literal type, which the caller overwrites with `i`. -/
def NewInterpolatedStringToken (text : String) (subtokens : List Token)
    (span : Span) : Token :=
  .mk { text := text, type := .s, span := span, subtokens := subtokens }

/-- Go: `NewExpressionToken` (token.go); `value` aliases the text. -/
def NewExpressionToken (text : String) (span : Span) : Token :=
  .mk { text := text, type := .e, span := span, value := some text }

/-- Go: `NewNumericToken` (token.go): fraction only when nonempty, exponent
only when nonzero. -/
def NewNumericToken (text radix : String) (base : Int)
    (mantissa fraction : String) (exponent : Int) (span : Span) : Token :=
  .mk { text := text, type := .n, span := span,
        radix := some radix, base := some base, mantissa := some mantissa,
        fraction := if fraction = "" then none else some fraction,
        exponent := if exponent = 0 then none else some exponent }

/-- Go: `NewBalancedTernaryToken` (token.go). -/
def NewBalancedTernaryToken (text mantissa fraction : String) (exponent : Int)
    (span : Span) : Token :=
  .mk { text := text, type := .n, span := span,
        radix := some "0t", base := some 3, mantissa := some mantissa,
        balanced := some true,
        fraction := if fraction = "" then none else some fraction,
        exponent := if exponent = 0 then none else some exponent }

/-- Go: `NewStartToken` (token.go). -/
def NewStartToken (text : String) (expecting closedBy : List String)
    (span : Span) (arity : Arity) : Token :=
  .mk { text := text, type := .S, span := span,
        expecting := some expecting, closedBy := some closedBy,
        arity := some arity }

/-- Go: `NewOperatorToken` (token.go): precedence only when some entry is
positive. -/
def NewOperatorToken (text : String) (pfx ifx pox : Int) (span : Span) : Token :=
  .mk { text := text, type := .O, span := span,
        precedence :=
          if pfx > 0 ∨ ifx > 0 ∨ pox > 0 then some (pfx, ifx, pox) else none }

/-- Go: `NewDelimiterToken` (token.go). -/
def NewDelimiterToken (text : String) (closedBy : List String) (isInfix : Int)
    (isPrefix : Bool) (span : Span) : Token :=
  .mk { text := text, type := .openDelim, span := span,
        closedBy := some closedBy, infixPrecedence := some isInfix,
        prefixFlag := some isPrefix }

/-- Go: `NewBridgeToken` (token.go). -/
def NewBridgeToken (text : String) (expecting inn : List String) (arity : Arity)
    (span : Span) : Token :=
  .mk { text := text, type := .B, span := span,
        expecting := some expecting, inn := some inn, arity := some arity }

/-- Go: `NewStmntBridgeToken` (token.go): arity `Many`. -/
def NewStmntBridgeToken (text : String) (expecting inn : List String)
    (span : Span) : Token :=
  NewBridgeToken text expecting inn .many span

/-- Go: `NewExprBridgeToken` (token.go): arity `One`. -/
def NewExprBridgeToken (text : String) (expecting inn : List String)
    (span : Span) : Token :=
  NewBridgeToken text expecting inn .one span

/-- Go: `NewWildcardBridgeToken` (token.go): a bridge with the donor keyword
recorded in `alias`. -/
def NewWildcardBridgeToken (text expectedText : String)
    (expecting inn : List String) (arity : Arity) (span : Span) : Token :=
  .mk { text := text, type := .B, span := span,
        expecting := some expecting, inn := some inn,
        aliasName := some expectedText, arity := some arity }

/-- Go: `NewUnclassifiedToken` (token.go). -/
def NewUnclassifiedToken (text : String) (span : Span) : Token :=
  .mk { text := text, type := .U, span := span }

/-- Go: `NewExceptionToken` (token.go). -/
def NewExceptionToken (text reason : String) (span : Span) : Token :=
  .mk { text := text, type := .X, span := span, reason := some reason }

/-- Go: `isValidDigitForRadix` (token.go). -/
def isValidDigitForRadix (char : Char) (radix : Int)
    (allowBalancedTernary : Bool) : Bool :=
  if allowBalancedTernary ∧ radix = 3 ∧ char = 'T' then true
  else if '0' ≤ char ∧ char ≤ '9' then
    Int.ofNat char.toNat - 48 < radix
  else if 'A' ≤ char ∧ char ≤ 'Z' then
    Int.ofNat char.toNat - 65 + 10 < radix
  else false

/-- Go: `isValidDigitsForRadix` (token.go): underscores are skipped. -/
def isValidDigitsForRadix (digits : String) (radix : Int)
    (allowBalancedTernary : Bool) : Bool :=
  digits.toList.all fun char =>
    if char = '_' then true
    else isValidDigitForRadix char radix allowBalancedTernary

/-- The prefix-shape check inside Go's `isValidNumber`: when the text
contains an `x`, `o`, `b` or `t`, the text before the first occurrence of
whichever of those letters is found first (searched in that fixed order)
must be exactly `"0"`. -/
def numericPrefixOk (text : List Char) : Bool :=
  if text.contains 'x' ∨ text.contains 'o' ∨ text.contains 'b' ∨
     text.contains 't' then
    let idx :=
      if text.contains 'x' then text.indexOf 'x'
      else if text.contains 'o' then text.indexOf 'o'
      else if text.contains 'b' then text.indexOf 'b'
      else text.indexOf 't'
    decide (text.take idx = ['0'])
  else true

/-- Go: `isValidNumber` (token.go): the validity flag and the reason. -/
def Token.isValidNumber (tk : Token) : Bool × String :=
  if ¬ tk.data.type = .n then (true, "")
  else
    match tk.data.base, tk.data.mantissa with
    | some base, some mantissa =>
      let isBalanced := tk.data.balanced = some true
      if ¬ numericPrefixOk tk.data.text.toList then (false, "invalid literal")
      else if ¬ isValidDigitsForRadix mantissa base isBalanced then
        (false, "invalid literal")
      else
        match tk.data.fraction with
        | some f =>
          if ¬ f = "" ∧ ¬ isValidDigitsForRadix f base isBalanced then
            (false, "invalid literal")
          else (true, "")
        | none => (true, "")
    | _, _ => (false, "missing base or mantissa")

/-- Go: `createExceptionToken` (tokenizer.go): the span end column counts
the text's bytes; the cursor advances past the text. -/
def Tokenizer.createExceptionToken (t : Tokenizer) (text reason : String) :
    Token × Tokenizer :=
  let endPos : Position := ⟨t.line, t.col + byteLen text⟩
  let span : Span := ⟨⟨0, 0⟩, endPos⟩
  (NewExceptionToken text reason span, t.advance text.toList.length)

/-- Go: `parseDecimalNumber` (tokenizer.go). -/
def Tokenizer.parseDecimalNumber (t : Tokenizer) (m : DecMatch) :
    Token × Tokenizer :=
  let fullMatch := m.full.asString
  let mantissa := m.mantissa.asString
  let fraction :=
    if m.fracGroup.isEmpty then "" else (m.fracGroup.drop 1).asString
  let exponent := m.expGroup.asString
  let mantissa := stripUnderscores mantissa
  let fraction := if fraction = "" then fraction else stripUnderscores fraction
  let endPos : Position := ⟨t.line, t.col + byteLen fullMatch⟩
  let span : Span := ⟨⟨0, 0⟩, endPos⟩
  let t := t.advance fullMatch.toList.length
  if exponent = "" then
    (NewNumericToken fullMatch "" 10 mantissa fraction 0 span, t)
  else
    match atoi exponent.toList with
    | some exponentVal =>
      (NewNumericToken fullMatch "" 10 mantissa fraction exponentVal span, t)
    | none =>
      -- Go: fmt.Sprintf("invalid literal: %s", err); the cursor has already
      -- advanced, so createExceptionToken advances past a consumed prefix —
      -- faithfully mirrored by calling it on the already-advanced state.
      t.createExceptionToken fullMatch ("invalid literal: strconv error")

/-- The digit-accumulation loop of the `'r'` branch of `parseRadixNumber`:
a wrapping 64-bit accumulator, `none` when a non-digit rune appears. -/
def parseRadixDigits (cs : List Char) : Option Int :=
  cs.foldl
    (fun acc digit =>
      match acc with
      | none => none
      | some v =>
        if '0' ≤ digit ∧ digit ≤ '9' then
          some (wrap64 (v * 10 + (Int.ofNat digit.toNat - 48)))
        else none)
    (some 0)

/-- The shared tail of the non-ternary branches of `parseRadixNumber`: strip
underscores, compute the span, advance, parse the exponent and build the
numeric token. -/
def Tokenizer.finishRadixNumber (t : Tokenizer)
    (fullMatch radixPrefix : String) (base : Int)
    (mantissa fraction exponent : String) : Token × Tokenizer :=
  let mantissa := stripUnderscores mantissa
  let fraction := if fraction = "" then fraction else stripUnderscores fraction
  let endPos : Position := ⟨t.line, t.col + byteLen fullMatch⟩
  let span : Span := ⟨⟨0, 0⟩, endPos⟩
  let t := t.advance fullMatch.toList.length
  if exponent = "" then
    (NewNumericToken fullMatch radixPrefix base mantissa fraction 0 span, t)
  else
    match atoi exponent.toList with
    | some exponentVal =>
      (NewNumericToken fullMatch radixPrefix base mantissa fraction exponentVal
        span, t)
    | none => t.createExceptionToken fullMatch "invalid literal"

/-- Go: `parseRadixNumber` (tokenizer.go). -/
def Tokenizer.parseRadixNumber (t : Tokenizer) (m : RadixMatch) :
    Token × Tokenizer :=
  let fullMatch := m.full.asString
  let radixPart := m.radixPart.asString
  let mantissa := m.mantissa.asString
  let fraction :=
    if m.fracGroup.isEmpty then "" else (m.fracGroup.drop 1).asString
  let exponent := m.expGroup.asString
  match m.radixPart.getLast? with
  | some 'x' =>
    if radixPart = "0x" then
      t.finishRadixNumber fullMatch "0x" 16 mantissa fraction exponent
    else t.createExceptionToken fullMatch "invalid literal"
  | some 'o' =>
    if radixPart = "0o" then
      t.finishRadixNumber fullMatch "0o" 8 mantissa fraction exponent
    else t.createExceptionToken fullMatch "invalid literal"
  | some 'b' =>
    if radixPart = "0b" then
      t.finishRadixNumber fullMatch "0b" 2 mantissa fraction exponent
    else t.createExceptionToken fullMatch "invalid literal"
  | some 't' =>
    if radixPart = "0t" then
      -- Balanced ternary: strip, advance, parse the exponent, and build a
      -- balanced-ternary token.
      let mantissa := stripUnderscores mantissa
      let fraction := if fraction = "" then fraction else stripUnderscores fraction
      let endPos : Position := ⟨t.line, t.col + byteLen fullMatch⟩
      let span : Span := ⟨⟨0, 0⟩, endPos⟩
      let t := t.advance fullMatch.toList.length
      if exponent = "" then
        (NewBalancedTernaryToken fullMatch mantissa fraction 0 span, t)
      else
        match atoi exponent.toList with
        | some exponentVal =>
          (NewBalancedTernaryToken fullMatch mantissa fraction exponentVal span, t)
        | none =>
          t.createExceptionToken fullMatch ("invalid literal: " ++ exponent)
    else t.createExceptionToken fullMatch "invalid literal"
  | some 'r' =>
    let radixStr := m.radixPart.dropLast
    match parseRadixDigits radixStr with
    | none => t.createExceptionToken fullMatch "invalid literal"
    | some parsedRadix =>
      if parsedRadix < 2 ∨ parsedRadix > 36 then
        t.createExceptionToken fullMatch "invalid literal"
      else
        t.finishRadixNumber fullMatch radixPart parsedRadix mantissa fraction
          exponent
  | _ => t.createExceptionToken fullMatch "invalid literal"

/-- Go: `matchNumeric` (tokenizer.go): radix form first, then decimal. -/
def Tokenizer.matchNumeric (t : Tokenizer) : Option (Token × Tokenizer) :=
  match radixRegexMatch t.charsFrom with
  | some m => some (t.parseRadixNumber m)
  | none =>
    match decimalRegexMatch t.charsFrom with
    | some m => some (t.parseDecimalNumber m)
    | none => none

/-- Go: `getMatchingCloseQuote` (strings.go). -/
def getMatchingCloseQuote (openingQuote : Char) : Char :=
  if openingQuote = '«' then '»' else openingQuote

/-- Go: `matches` (strings.go): bracket pairing. -/
def bracketMatches (openB closeB : Char) : Bool :=
  (openB = '(' ∧ closeB = ')') ∨ (openB = '[' ∧ closeB = ']') ∨
  (openB = '{' ∧ closeB = '}')

/-- The substring of the input from rune index `a` to the current position,
Go's `t.input[a:t.position]`. -/
def Tokenizer.substrFrom (t : Tokenizer) (a : Nat) : String :=
  ((t.input.drop a).take (t.pos - a)).asString

/-- Go: `strconv.ParseInt(code, 16, 32)`: an optional sign and a nonempty
hex-digit run, within the 32-bit range. -/
def parseIntHex (cs : List Char) : Option Int :=
  let signAndDigits : Bool × List Char :=
    match cs with
    | '+' :: r => (false, r)
    | '-' :: r => (true, r)
    | r => (false, r)
  let ds := signAndDigits.2
  if ds.isEmpty ∨
     ¬ ds.all (fun c =>
        c.isDigit ∨ ('a' ≤ c ∧ c ≤ 'f') ∨ ('A' ≤ c ∧ c ≤ 'F')) then none
  else
    let hexVal : Char → Int := fun c =>
      if c.isDigit then Int.ofNat c.toNat - 48
      else if 'a' ≤ c ∧ c ≤ 'f' then Int.ofNat c.toNat - 97 + 10
      else Int.ofNat c.toNat - 65 + 10
    let v : Int := ds.foldl (fun a c => a * 16 + hexVal c) 0
    let v := if signAndDigits.1 then -v else v
    if v < -(2 ^ 31) ∨ v > 2 ^ 31 - 1 then none else some v

/-- Go: `decodeUnicodeEscape` (strings.go): the rune value of a `\uXXXX`
code, or `none` on a parse error. -/
def decodeUnicodeEscape (code : String) : Option Int :=
  parseIntHex code.toList

/-- Go's `string(r)` on a rune: an invalid scalar value becomes U+FFFD. -/
def runeToString (v : Int) : String :=
  if 0 ≤ v ∧ v.toNat.isValidChar then String.singleton (Char.ofNat v.toNat)
  else "�"

/-- Go: `readUnicodeEscape` (strings.go): read up to four runes, advancing
the raw position only (line and column are not updated); on a full
well-formed code return the decoded scalar, otherwise `\u` plus the runes
read. -/
def Tokenizer.readUnicodeEscape (t : Tokenizer) : String × Tokenizer :=
  let code := (t.charsFrom.take 4)
  let t := { t with pos := t.pos + code.length }
  if code.length = 4 then
    match decodeUnicodeEscape code.asString with
    | some v => (runeToString v, t)
    | none => ("\\u" ++ code.asString, t)
  else ("\\u" ++ code.asString, t)

/-- Go: `handleEscapeSequence` (strings.go): consume the rune after the
backslash and return its expansion (unknown escapes are kept verbatim;
`\_` expands to nothing). -/
def handleEscapeSequence (t : Tokenizer) : String × Tokenizer :=
  let (r, t) := t.consume
  match r with
  | 'b' => ("\u0008", t)
  | 'f' => ("\u000C", t)
  | 'n' => ("\n", t)
  | 'r' => ("\r", t)
  | 't' => ("\t", t)
  | '\\' => ("\\", t)
  | '/' => ("/", t)
  | '"' => ("\"", t)
  | '\'' => ("'", t)
  | '`' => ("`", t)
  | '»' => ("»", t)
  | 'u' => t.readUnicodeEscape
  | '_' => ("", t)
  | _ => ("\\" ++ String.singleton r, t)

/-- The loop of Go's `readStringInterpolation`: `state` 0 is "inside
expression", 1 is "inside string"; `stack` is the pushdown stack with its
top at the head.  A nested `\(`, `\[` or `\{` inside a string re-runs the
same automaton (Go recurses into `readStringInterpolation`; the three set-up
steps are inlined here).  Note the Go source matches the letter `'r'`, not
`'\r'`, in the line-break case. -/
def interpGo : Nat → Position → Nat → List Char → Tokenizer →
    Except String (Token × Tokenizer)
  | 0, _, _, _, _ => .error "out of fuel"
  | fuel + 1, spanStart, state, stack, t =>
    if ¬ t.hasMoreInput then
      .error ("unterminated interpolation, at line " ++ toString spanStart.line ++
              ", Column: " ++ toString spanStart.col)
    else
      let (r, t) := t.consume
      if state = 0 then
        if r = '\\' then
          let (_, t) := handleEscapeSequence t
          interpGo fuel spanStart 0 stack t
        else if r = '(' ∨ r = '[' ∨ r = '{' then
          interpGo fuel spanStart 0 (r :: stack) t
        else if r = ')' ∨ r = ']' ∨ r = '}' then
          match stack with
          | top :: rest =>
            if bracketMatches top r then
              if rest.isEmpty then
                let (text, t) := t.popMark
                let span : Span := ⟨spanStart, ⟨t.line, t.col⟩⟩
                .ok (NewExpressionToken text span, t)
              else
                interpGo fuel spanStart 0 rest t
            else
              .error ("mismatched bracket, at line " ++ toString spanStart.line ++
                      ", Column: " ++ toString spanStart.col)
          | [] =>
            .error ("mismatched bracket, at line " ++ toString spanStart.line ++
                    ", Column: " ++ toString spanStart.col)
        else if r = '"' ∨ r = '\'' ∨ r = '`' ∨ r = '«' then
          interpGo fuel spanStart 1 (getMatchingCloseQuote r :: stack) t
        else if r = 'r' ∨ r = '\n' then
          .error ("line break in interpolation, at line " ++ toString t.line ++
                  ", Column: " ++ toString t.col)
        else
          interpGo fuel spanStart 0 stack t
      else
        if r = '\\' then
          if t.hasMoreInput then
            let next := (t.peek).getD (Char.ofNat 0)
            if next = '(' ∨ next = '[' ∨ next = '{' then
              let spanStart2 : Position := ⟨t.line, t.col⟩
              let t := t.markPosition
              let (op2, t) := t.consume
              match interpGo fuel spanStart2 0 [op2] t with
              | .error e => .error e
              | .ok (_, t) => interpGo fuel spanStart 1 stack t
            else
              let (_, t) := handleEscapeSequence t
              interpGo fuel spanStart 1 stack t
          else
            .error ("unterminated escape sequence, at line " ++
                    toString spanStart.line ++ ", Column: " ++
                    toString spanStart.col)
        else
          match stack with
          | top :: rest =>
            if r = top then interpGo fuel spanStart 0 rest t
            else interpGo fuel spanStart 1 stack t
          | [] =>
            -- Unreachable: state 1 is only entered with a quote pushed.
            interpGo fuel spanStart 1 stack t

/-- Go: `readStringInterpolation` (strings.go): mark, consume the opening
bracket and run the pushdown automaton. -/
def Tokenizer.readStringInterpolation (fuel : Nat) (t : Tokenizer) :
    Except String (Token × Tokenizer) :=
  let spanStart : Position := ⟨t.line, t.col⟩
  let t := t.markPosition
  let (openingRune, t) := t.consume
  interpGo fuel spanStart 0 [openingRune] t

/-- The code after the scan loop of Go's `readString`: flush the pending
chunk, rebuild the original text, and either return the single plain string
chunk (with the full text planted on it) or combine everything into an
interpolated-string token. -/
def finishReadString (startPosition : Nat) (startLine startCol : Int)
    (quote : Char) (currPosition : Nat) (currSpan : Span) (value : List Char)
    (interpTokens : List Token) (t : Tokenizer) : Token × Tokenizer :=
  let interpTokens :=
    if value.length > 0 then
      let textString := t.substrFrom currPosition
      let span : Span := { currSpan with stop := ⟨t.line, t.col⟩ }
      interpTokens ++ [(NewStringToken textString value.asString span).setQuote quote]
    else interpTokens
  let text := t.substrFrom startPosition
  let compound :=
    ((NewInterpolatedStringToken text interpTokens
        ⟨⟨startLine, startCol⟩, ⟨t.line, t.col⟩⟩).setQuote quote).modify
      fun d => { d with type := .i }
  match interpTokens with
  | [tok] =>
    if tok.type = .s then (tok.modify (fun d => { d with text := text }), t)
    else (compound, t)
  | _ => (compound, t)

/-- The scan loop of Go's `readString`. -/
def readStringGo : Nat → Bool → Char → Nat → Int → Int → Nat → Span →
    List Char → List Token → Tokenizer → Except String (Token × Tokenizer)
  | 0, _, _, _, _, _, _, _, _, _, _ => .error "out of fuel"
  | fuel + 1, unquoted, quote, startPosition, startLine, startCol,
    currPosition, currSpan, value, interpTokens, t =>
    if ¬ t.hasMoreInput then
      .error ("unterminated string at line " ++ toString startLine ++
              ", column " ++ toString startCol)
    else
      let beforeBackSlash : Position := ⟨t.line, t.col⟩
      let (r, t') := t.consume
      if ¬ unquoted ∧ r = quote then
        .ok (finishReadString startPosition startLine startCol quote
              currPosition currSpan value interpTokens t')
      else if r = '\\' ∧ t'.hasMoreInput then
        let next := (t'.peek).getD (Char.ofNat 0)
        if next = '(' ∨ next = '[' ∨ next = '{' then
          let flushed : List Token × List Char :=
            if value.length > 0 then
              let textString := t'.substrFrom currPosition
              let span : Span := { currSpan with stop := beforeBackSlash }
              (interpTokens ++
                [(NewStringToken textString value.asString span).setQuote quote],
               [])
            else (interpTokens, value)
          match t'.readStringInterpolation fuel with
          | .error e => .error e
          | .ok (interpolatedToken, t2) =>
            readStringGo fuel unquoted quote startPosition startLine startCol
              t2.pos ⟨⟨t2.line, t2.col⟩, ⟨-1, -1⟩⟩ flushed.2
              (flushed.1 ++ [interpolatedToken]) t2
        else
          let (esc, t2) := handleEscapeSequence t'
          readStringGo fuel unquoted quote startPosition startLine startCol
            currPosition currSpan (value ++ esc.toList) interpTokens t2
      else if r = '\n' ∨ r = '\r' then
        if unquoted then
          let t2 := if r = '\r' then (t'.tryConsumeRune '\n').2 else t'
          .ok (finishReadString startPosition startLine startCol quote
                currPosition currSpan value interpTokens t2)
        else
          .error ("line break in string, at line " ++ toString startLine ++
                  ", column " ++ toString startCol)
      else
        readStringGo fuel unquoted quote startPosition startLine startCol
          currPosition currSpan (value ++ [r]) interpTokens t'

/-- Go: `readString` (strings.go). -/
def Tokenizer.readString (fuel : Nat) (unquoted : Bool) (defaultQuote : Char)
    (t : Tokenizer) : Except String (Token × Tokenizer) :=
  let startPosition := t.pos
  let startLine := t.line
  let startCol := t.col
  let currPosition := t.pos
  let currSpan : Span := ⟨⟨startLine, startCol⟩, ⟨-1, -1⟩⟩
  let quoteAndT : Char × Tokenizer :=
    if unquoted then (defaultQuote, t)
    else
      let (c, t') := t.consume
      (getMatchingCloseQuote c, t')
  readStringGo fuel unquoted quoteAndT.1 startPosition startLine startCol
    currPosition currSpan [] [] quoteAndT.2

/-- The scan loop of Go's `readRawString` (backslashes are ordinary
characters). -/
def readRawStringGo : Nat → Bool → Char → Nat → Int → Int → List Char →
    Tokenizer → Except String (Token × Tokenizer)
  | 0, _, _, _, _, _, _, _ => .error "out of fuel"
  | fuel + 1, unquoted, quote, startPosition, startLine, startCol, text, t =>
    if ¬ t.hasMoreInput then
      .error ("unterminated raw string at line " ++ toString startLine ++
              ", column " ++ toString startCol)
    else
      let (r, t') := t.consume
      if r = quote then
        let originalText := t'.substrFrom startPosition
        .ok ((NewStringToken originalText text.asString
               ⟨⟨startLine, startCol⟩, ⟨t'.line, t'.col⟩⟩).setQuote quote, t')
      else if r = '\n' ∨ r = '\r' then
        if unquoted then
          let t2 := if r = '\r' then (t'.tryConsumeRune '\n').2 else t'
          let originalText := t2.substrFrom startPosition
          .ok ((NewStringToken originalText text.asString
                 ⟨⟨startLine, startCol⟩, ⟨t2.line, t2.col⟩⟩).setQuote quote, t2)
        else
          .error ("line break in raw string at line " ++ toString startLine ++
                  ", column " ++ toString startCol)
      else
        readRawStringGo fuel unquoted quote startPosition startLine startCol
          (text ++ [r]) t'

/-- Go: `readRawString` (strings.go). -/
def Tokenizer.readRawString (fuel : Nat) (unquoted : Bool) (defaultQuote : Char)
    (t : Tokenizer) : Except String (Token × Tokenizer) :=
  let startPosition := t.pos
  let startLine := t.line
  let startCol := t.col
  let quoteAndT : Char × Tokenizer :=
    if unquoted then (defaultQuote, t)
    else
      let (c, t') := t.consume
      (getMatchingCloseQuote c, t')
  readRawStringGo fuel unquoted quoteAndT.1 startPosition startLine startCol []
    quoteAndT.2

/-- Go: `takeTagText` (strings.go): an identifier-shaped run (Go uses
`unicode.IsLetter`/`IsDigit`; the inputs of interest are ASCII). -/
def Tokenizer.takeTagText (t : Tokenizer) : String × Tokenizer :=
  let run := t.charsFrom.takeWhile fun r => r.isAlpha ∨ r.isDigit ∨ r = '_'
  (run.asString, t.advance run.length)

/-- Go's `strings.TrimSpace`: strip leading and trailing Unicode
whitespace. -/
def goTrimSpace (s : String) : String :=
  (((s.toList.dropWhile goIsSpace).reverse.dropWhile goIsSpace).reverse).asString

/-- Go: `readSpecifier` (strings.go): the rest of the line, trimmed; it must
hold no interior space and match `^[a-zA-Z_]\w*$` when nonempty. -/
def Tokenizer.readSpecifier (t : Tokenizer) : Except String (String × Tokenizer) :=
  let text := t.charsFrom.takeWhile (fun r => ¬ (r = '\n' ∨ r = '\r'))
  let t := t.advance text.length
  let t :=
    match t.peek with
    | some '\r' => ((t.consume.2).tryConsumeRune '\n').2
    | some '\n' => t.consume.2
    | _ => t
  let strtext := goTrimSpace text.asString
  if strtext.toList.contains ' ' then
    .error ("spaces inside code-fence specifier at line " ++ toString t.line ++
            ", column " ++ toString t.col)
  else if strtext.length > 0 then
    match strtext.toList with
    | c :: rest =>
      if isIdentStart c ∧ rest.all isIdentCont then .ok (strtext, t)
      else
        .error ("invalid code-fence specifier at line " ++ toString t.line ++
                ", column " ++ toString t.col)
    | [] => .ok (strtext, t)
  else .ok (strtext, t)

/-- The line-scanning loop of Go's `findClosingIndent`: read lines until one
is whitespace followed by three closing quotes. -/
def findClosingIndentGo (closingQuote : Char) :
    Nat → Tokenizer → List String → Option (List String × String × Tokenizer)
  | 0, _, _ => none
  | fuel + 1, t, lines =>
    if t.hasMoreInput then
      let (line, t) := t.readRestOfLine
      let mi := textIsWhitespaceFollowedBy3Quotes line closingQuote
      if mi.1 then some (lines, mi.2, t)
      else findClosingIndentGo closingQuote fuel t (lines ++ [line])
    else none

/-- Go: `findClosingIndent` (strings.go): mark, consume the opening triple
quotes and the specifier line, locate the closing line and its indent, check
every earlier nonempty line starts with that indent, and reset to the mark.
Returns the closing quote, the indent, the specifier and the line count. -/
def Tokenizer.findClosingIndent (fuel : Nat) (t : Tokenizer) :
    Except String (Char × String × String × Nat × Tokenizer) :=
  let t := t.markPosition
  match t.tryReadTripleQuotes true with
  | (none, t) =>
    .error ("malformed opening triple quotes at line " ++ toString t.line ++
            ", column " ++ toString t.col)
  | (some openingQuote, t) =>
    let closingQuote := getMatchingCloseQuote openingQuote
    match t.readSpecifier with
    | .error e => .error e
    | .ok (specifier, t) =>
      match findClosingIndentGo closingQuote fuel t [] with
      | none =>
        .error ("closing triple quote not found at line " ++ toString t.line ++
                ", column " ++ toString t.col)
      | some (lines, closingIndent, t) =>
        if lines.all fun line =>
            line = "" ∨ closingIndent.toList.isPrefixOf line.toList then
          .ok (closingQuote, closingIndent, specifier, lines.length,
               t.resetPosition)
        else
          .error "not indented consistently with the closing triple quote"

/-- Go: `consumeTripleClosingQuotes` (strings.go). -/
def Tokenizer.consumeTripleClosingQuotes (t : Tokenizer) (quote : Char) :
    Except String Tokenizer :=
  match t.tryReadTripleQuotes false with
  | (none, t) =>
    .error ("missing triple quotes at line " ++ toString t.line ++
            ", column " ++ toString t.col)
  | (some r, t) =>
    if r = quote then .ok t
    else
      .error ("unexpected closing quote at line " ++ toString t.line ++
              ", column " ++ toString t.col)

/-- The per-line loop of Go's `readMultilineString`: for each of the
`nlines` content lines, consume the closing indent and lex the remainder of
the line as a (raw or cooked) unquoted string, or record an empty chunk. -/
def multilineLinesGo (fuel : Nat) (rawFlag : Bool) (openingQuote : Char)
    (closingIndent : String) :
    Nat → Tokenizer → List Token → Except String (List Token × Tokenizer)
  | 0, t, acc => .ok (acc, t)
  | n + 1, t, acc =>
    let ct := t.tryConsumeText closingIndent
    if ct.1 then
      let res :=
        if rawFlag then ct.2.readRawString fuel true openingQuote
        else ct.2.readString fuel true openingQuote
      match res with
      | .error e => .error e
      | .ok (tok, t') =>
        multilineLinesGo fuel rawFlag openingQuote closingIndent n t'
          (acc ++ [tok])
    else
      let tok := (NewStringToken "" ""
        ⟨⟨t.line, t.col⟩, ⟨t.line, t.col⟩⟩).setQuote openingQuote
      multilineLinesGo fuel rawFlag openingQuote closingIndent n ct.2
        (acc ++ [tok])

/-- Go: `readMultilineString` (strings.go).  Note that the Go variable named
`openingQuote` receives the *closing* quote returned by
`findClosingIndent`. -/
def Tokenizer.readMultilineString (fuel : Nat) (rawFlag : Bool) (t : Tokenizer) :
    Except String (Token × Tokenizer) :=
  let startPosition := t.pos
  let startLine := t.line
  let startCol := t.col
  match t.findClosingIndent fuel with
  | .error e => .error e
  | .ok (openingQuote, closingIndent, specifier, nlines, t) =>
    let closingQuote := getMatchingCloseQuote openingQuote
    let t := (t.readRestOfLine).2
    match multilineLinesGo fuel rawFlag openingQuote closingIndent nlines t [] with
    | .error e => .error e
    | .ok (subTokens, t) =>
      let t := t.skipSpacesUpToNewline
      match t.consumeTripleClosingQuotes closingQuote with
      | .error e => .error e
      | .ok t =>
        let originalText := t.substrFrom startPosition
        let token :=
          ((NewMultiLineStringToken originalText ""
              ⟨⟨startLine, startCol⟩, ⟨t.line, t.col⟩⟩).modify fun d =>
            { d with specifier := some specifier,
                     subtokens := subTokens }).setQuote openingQuote
        .ok (token, t)

/-- The opening steps of Go's `matchRawString`: consume the `@` and an
optional identifier tag. -/
def Tokenizer.consumeAtAndTag (t : Tokenizer) : String × Tokenizer :=
  let t1 := (t.consume).2
  match t1.peek with
  | some r => if r.isAlpha ∨ r = '_' then t1.takeTagText else ("", t1)
  | none => ("", t1)

/-- Go: `matchRawString` (strings.go): after `@` and an optional tag there
must be an opening quote (else the run fails); a tag that disagrees with the
string's own specifier is an error, otherwise it becomes the specifier. -/
def Tokenizer.matchRawString (fuel : Nat) (t : Tokenizer) :
    Except String (Token × Tokenizer) :=
  let tg := t.consumeAtAndTag
  let tagText := tg.1
  let t := tg.2
  match t.peek with
  | some r =>
    if isOpeningQuoteChar r then
      let res :=
        if (t.tryPeekTripleQuotes true).isSome then
          t.readMultilineString fuel true
        else
          t.readRawString fuel false r
      match res with
      | .error e => .error e
      | .ok (token, t') =>
        match token.data.specifier with
        | some sp =>
          if ¬ tagText = "" ∧ ¬ sp = tagText then
            .error ("tag specifier '" ++ tagText ++
                    "' does not match existing specifier '" ++ sp ++ "'")
          else if ¬ tagText = "" then
            .ok (token.modify (fun d => { d with specifier := some tagText }), t')
          else .ok (token, t')
        | none =>
          if ¬ tagText = "" then
            .ok (token.modify (fun d => { d with specifier := some tagText }), t')
          else .ok (token, t')
  else
      .error ("expected string after @ at line " ++ toString t.line ++
              ", column " ++ toString t.col)
  | none =>
    .error ("expected string after @ at line " ++ toString t.line ++
            ", column " ++ toString t.col)

/-- Go: `matchString` (strings.go): strings start with an opening quote
(single or triple) or `@`; anything else is no match. -/
def Tokenizer.matchString (fuel : Nat) (t : Tokenizer) :
    Except String (Option (Token × Tokenizer)) :=
  if ¬ t.hasMoreInput then .ok none
  else
    match t.peek with
    | none => .ok none
    | some r =>
      if ¬ isOpeningQuoteChar r then
        if r = '@' then
          match t.matchRawString fuel with
          | .error e => .error e
          | .ok res => .ok (some res)
        else .ok none
      else if (t.tryPeekTripleQuotes true).isSome then
        match t.readMultilineString fuel false with
        | .error e => .error e
        | .ok res => .ok (some res)
      else
        match t.readString fuel false r with
        | .error e => .error e
        | .ok res => .ok (some res)

/-- The loop of Go's `skipWhitespaceAndComments`: skip `###` comments (which
always count as a newline) and whitespace runes, reporting whether a line
terminator was seen. -/
def skipWSGo : Nat → Tokenizer → Bool → Bool × Tokenizer
  | 0, t, sawNewline => (sawNewline, t)
  | fuel + 1, t, sawNewline =>
    if t.pos < t.input.length then
      let cm := commentMatch t.charsFrom
      if ¬ cm.isEmpty then
        skipWSGo fuel (t.advance cm.length) true
      else
        match t.peek with
        | none => (sawNewline, t)
        | some r =>
          if ¬ goIsSpace r then (sawNewline, t)
          else
            let sawNewline := if r = '\n' ∨ r = '\r' then true else sawNewline
            skipWSGo fuel (t.advance 1) sawNewline
    else (sawNewline, t)

/-- Go: `skipWhitespaceAndComments` (tokenizer.go). -/
def Tokenizer.skipWhitespaceAndComments (t : Tokenizer) : Bool × Tokenizer :=
  skipWSGo (t.input.length + 1) t false

/-- Go: `nextIdOrOp` (tokenizer.go): an identifier run, else an operator
run, else a single rune; `none` only at the end of the input.  The first
component says whether the match is an identifier. -/
def Tokenizer.nextIdOrOp (t : Tokenizer) : Option (Bool × String) :=
  let im := identifierMatch t.charsFrom
  if ¬ im.isEmpty then some (true, im.asString)
  else
    let om := operatorMatch t.charsFrom
    if ¬ om.isEmpty then some (false, om.asString)
    else
      match t.peek with
      | some r => some (false, String.singleton r)
      | none => none

/-- The result of `matchCustomRules`: a token, no match, or a Go panic
(an interface conversion on a payload of the wrong shape). -/
inductive MatchRes where
  | found (tok : Token) (t : Tokenizer)
  | nomatch
  | crash (msg : String)

/-- Go: `matchCustomRules` (tokenizer.go).  A wildcard hit consults the head
of the expectation stack and copies a bridge rule's attributes, falling back
to an unclassified token; a miss on an identifier yields a variable token.
The `CustomPrefix` branch casts the entry's `Data` — which
`BuildTokenLookup` stores as `nil` for prefix rules — to `PrefixTokenData`
and therefore panics; the other casts panic only if the payload shape
disagrees with the rule kind. -/
def Tokenizer.matchCustomRules (t : Tokenizer) : MatchRes :=
  match t.nextIdOrOp with
  | none => .nomatch
  | some (isIdentifier, text) =>
    let endPos : Position := ⟨t.line, t.col + byteLen text⟩
    let span : Span := ⟨⟨0, 0⟩, endPos⟩
    match lookupAL t.rules.tokenLookup text with
    | none =>
      if isIdentifier then
        .found (NewToken text .V span) (t.advance text.toList.length)
      else .nomatch
    | some entry =>
      match entry.type with
      | .customWildcard =>
        let expected := (t.getCurrentlyExpected).getD []
        if expected.length > 0 then
          let expectedText := expected.headI
          match lookupAL t.rules.bridgeTokens expectedText with
          | some bridgeData =>
            .found
              (NewWildcardBridgeToken text expectedText bridgeData.expecting
                bridgeData.inn bridgeData.arity span)
              (t.advance text.toList.length)
          | none =>
            .found (NewToken text .U span) (t.advance text.toList.length)
        else
          .found (NewToken text .U span) (t.advance text.toList.length)
      | .customStart =>
        match entry.data with
        | .startD startData =>
          .found
            (NewStartToken text startData.expecting startData.closedBy span
              startData.arity)
            (t.advance text.toList.length)
        | _ => .crash "interface conversion: Data is not StartTokenData"
      | .customEnd =>
        .found (NewToken text .E span) (t.advance text.toList.length)
      | .customBridge =>
        match entry.data with
        | .bridgeD bridgeData =>
          .found
            (NewStmntBridgeToken text bridgeData.expecting bridgeData.inn span)
            (t.advance text.toList.length)
        | _ => .crash "interface conversion: Data is not BridgeTokenData"
      | .customPrefix =>
        -- Go: `entry.Data.(PrefixTokenData)` where BuildTokenLookup stored
        -- nil Data for every prefix rule: this type assertion panics.
        .crash "interface conversion: interface is nil, not PrefixTokenData"
      | .customOperator =>
        match entry.data with
        | .opD p =>
          .found (NewOperatorToken text p.1 p.2.1 p.2.2 span)
            (t.advance text.toList.length)
        | _ => .crash "interface conversion: Data is not [3]int"
      | .customOpenDelimiter =>
        match entry.data with
        | .delimD closedBy infixPrec isPrefix =>
          .found (NewDelimiterToken text closedBy infixPrec isPrefix span)
            (t.advance text.toList.length)
        | _ => .crash "interface conversion: Data is not a delimiter struct"
      | .customCloseDelimiter =>
        .found (NewToken text .closeDelim span) (t.advance text.toList.length)
      | .customMark =>
        .found (NewToken text .M span) (t.advance text.toList.length)

/-- The result of one driver step or of a whole run: success, a tokenisation
error (the tokenizer state, with its tokens, survives), or a Go panic. -/
inductive StepRes where
  | ok (t : Tokenizer)
  | err (msg : String) (t : Tokenizer)
  | crash (msg : String)

/-- Go: `addTokenAndManageStack` (tokenizer.go): demote an invalid numeric
token to an exception; peek ahead (saving and restoring position, line and
column) to compute `ln_after`; append the token; halt on an exception token;
and manage the expectation stack by the token's type. -/
def Tokenizer.addTokenAndManageStack (t : Tokenizer) (token : Token) : StepRes :=
  let invalid :=
    if token.data.type = .n then
      let vr := token.isValidNumber
      if vr.1 then none else some vr.2
    else none
  match invalid with
  | some reason =>
    let exceptionToken :=
      NewExceptionToken token.data.text ("invalid numeric literal: " ++ reason)
        token.data.span
    let t := { t with tokens := t.tokens ++ [exceptionToken] }
    .err ("tokenisation error: " ++ "invalid numeric literal: " ++ reason) t
  | none =>
    -- Peek ahead for a following newline; position, line and column are
    -- saved before the scan and restored after it.
    let savedPosition := t.pos
    let savedLine := t.line
    let savedColumn := t.col
    let sw := t.skipWhitespaceAndComments
    let sawNewlineAfter := sw.1
    let t := { sw.2 with pos := savedPosition, line := savedLine,
                         col := savedColumn }
    let token :=
      if sawNewlineAfter then
        token.modify fun d => { d with lnAfter := some true }
      else token
    let t := { t with tokens := t.tokens ++ [token] }
    if token.data.type = .X then
      .err ("tokenisation error: " ++ ((token.data.reason).getD "")) t
    else
      match token.data.type with
      | .S =>
        if ((token.data.expecting).getD []).length > 0 then
          .ok (t.pushExpecting ((token.data.expecting).getD []))
        else .ok t
      | .E => .ok t.popExpecting
      | .B =>
        match token.data.expecting with
        | some expecting => .ok (t.replaceExpecting expecting)
        | none => .ok t
      | _ => .ok t

/-- Go: `nextToken` (tokenizer.go): skip whitespace and comments, then try
the string, numeric and custom-rule matchers in order, falling back to a
one-rune unclassified token; a matched token gets its span start and
`ln_before` planted before being added. -/
def Tokenizer.nextToken (t : Tokenizer) : StepRes :=
  let fuel := t.input.length + 1
  let sw := t.skipWhitespaceAndComments
  let sawNewlineBefore := sw.1
  let t := sw.2
  if ¬ t.pos < t.input.length then .ok t
  else
    let start : Position := ⟨t.line, t.col⟩
    let plant : Token → Token := fun tok =>
      let tok := tok.modify fun d => { d with span := { d.span with start := start } }
      if sawNewlineBefore then tok.modify fun d => { d with lnBefore := some true }
      else tok
    match t.matchString fuel with
    | .error e => .err e t
    | .ok (some (token, t2)) => t2.addTokenAndManageStack (plant token)
    | .ok none =>
      match t.matchNumeric with
      | some (token, t2) => t2.addTokenAndManageStack (plant token)
      | none =>
        match t.matchCustomRules with
        | .found token t2 => t2.addTokenAndManageStack (plant token)
        | .crash msg => .crash msg
        | .nomatch =>
          match t.peek with
          | some r =>
            let text := String.singleton r
            let endPos : Position := ⟨t.line, t.col + Int.ofNat r.utf8Size⟩
            let span : Span := ⟨start, endPos⟩
            let token := NewToken text .U span
            let token :=
              if sawNewlineBefore then
                token.modify fun d => { d with lnBefore := some true }
              else token
            (t.advance 1).addTokenAndManageStack token
          | none => .ok t

/-- The result of a whole tokenisation run. -/
inductive LoopRes where
  | fin (t : Tokenizer) (err : Option String)
  | crashed (msg : String)

/-- The driver loop of Go's `Tokenize`: call `nextToken` while input
remains, stopping at the first error. -/
def tokenizeGo : Nat → Tokenizer → LoopRes
  | 0, t => .fin t (some "out of fuel")
  | fuel + 1, t =>
    if t.pos < t.input.length then
      match t.nextToken with
      | .ok t' => tokenizeGo fuel t'
      | .err msg t' => .fin t' (some msg)
      | .crash msg => .crashed msg
    else .fin t none

/-- Go: `Tokenize` on a tokenizer built by `NewTokenizerWithRules`. -/
def TokenizeWith (input : String) (rules : TokenizerRules) : LoopRes :=
  let t := newTokenizerWithRules input rules
  tokenizeGo (t.input.length + 1) t

/-- Go: `NewTokenizer(input).Tokenize()` — a run with the default rules. -/
def Tokenize (input : String) : LoopRes :=
  TokenizeWith input defaultRules

/-- The tokens returned by a run (Go's `Tokenize` returns `t.tokens` both on
success and on error; a crash returns nothing and is mapped to `[]`). -/
def runTokens (input : String) : List Token :=
  match Tokenize input with
  | .fin t _ => t.tokens
  | .crashed _ => []

/-- The error of a run, if any. -/
def runErr (input : String) : Option String :=
  match Tokenize input with
  | .fin _ e => e
  | .crashed m => some m

/-- Whether a run ended in a Go panic. -/
def runCrashed (input : String) : Bool :=
  match Tokenize input with
  | .fin _ _ => false
  | .crashed _ => true

/-- The token types of a run, in order. -/
def runTokenTypes (input : String) : List TokenType :=
  (runTokens input).map Token.type

/-- The texts of a run's tokens. -/
def runTokenTexts (input : String) : List String :=
  (runTokens input).map Token.text

/-- The `alias` field of the `i`-th token of a run. -/
def runTokenAlias (input : String) (i : Nat) : Option (Option String) :=
  ((runTokens input).get? i).map Token.aliasOf

/-- The `reason` field of the `i`-th token of a run. -/
def runTokenReason (input : String) (i : Nat) : Option (Option String) :=
  ((runTokens input).get? i).map Token.reasonOf

/-- The span of the `i`-th token of a run. -/
def runTokenSpan (input : String) (i : Nat) : Option Span :=
  ((runTokens input).get? i).map Token.span

/-- The sub-token texts of the `i`-th token of a run. -/
def runSubTexts (input : String) (i : Nat) : Option (List String) :=
  ((runTokens input).get? i).map fun tk => tk.subtokens.map Token.text

/-- The sub-token types of the `i`-th token of a run. -/
def runSubTypes (input : String) (i : Nat) : Option (List TokenType) :=
  ((runTokens input).get? i).map fun tk => tk.subtokens.map Token.type

/-- The sub-token values of the `i`-th token of a run. -/
def runSubValues (input : String) (i : Nat) : Option (List (Option String)) :=
  ((runTokens input).get? i).map fun tk => tk.subtokens.map Token.valueOf

/-- The state after one successful driver step on a fresh default-rules
tokenizer, if the step succeeded. -/
def nextTokenOk (input : String) : Option Tokenizer :=
  match (newTokenizer input).nextToken with
  | .ok t => some t
  | _ => none

/-- The expectation-stack depth after one successful driver step. -/
def nextTokenOkDepth (input : String) : Option Nat :=
  (nextTokenOk input).map fun t => t.expectingStack.length

/-- The token-type list after one successful driver step. -/
def nextTokenOkTypes (input : String) : Option (List TokenType) :=
  (nextTokenOk input).map fun t => t.tokens.map Token.type

/-- Modelled from the spec's words (for comparison with the code): "for any
numeric token, `text` with underscores removed equals the concatenation of
`radix`, `mantissa`, optional `"." + fraction`, optional `"e" + signed
exponent`" — the concatenation built from the *emitted* token fields. -/
def specNumericConcat (tk : Token) : String :=
  (tk.data.radix).getD "" ++ (tk.data.mantissa).getD "" ++
  (match tk.data.fraction with
   | some f => "." ++ f
   | none => "") ++
  (match tk.data.exponent with
   | some ex => "e" ++ toString ex
   | none => "")

/-- The numeric token `matchNumeric` emits for the input `10rAB`: radix
prefix `10r`, base 10, mantissa `AB` — whose digits are invalid for base
10. -/
def c4tok : Token :=
  NewNumericToken "10rAB" "10r" 10 "AB" "" 0 ⟨⟨1, 1⟩, ⟨1, 6⟩⟩

/-- The numeric token `matchNumeric` emits for the input `1_2.3_4e5`: text
keeps the underscores, the mantissa and fraction fields are stripped, the
exponent is parsed. -/
def c5tok : Token :=
  NewNumericToken "1_2.3_4e5" "" 10 "12" "34" 5 ⟨⟨0, 0⟩, ⟨1, 10⟩⟩

/-- A tokenizer at a wildcard lexeme with an expectation stack whose head
list starts with `"then"` (the state reached inside `if x:` right after
`if`). -/
def wildcardProbe : Tokenizer :=
  { newTokenizer ":" with expectingStack := [["then"]] }

/-- A tokenizer about to process an End token while the expectation stack
holds one frame. -/
def endProbe : Tokenizer :=
  { newTokenizer "" with expectingStack := [["then"]] }

/-!
## Theorems
-/

@[simp]
theorem Token.data_mk (d : TokenData Token) : (Token.mk d).data = d := rfl

@[simp]
theorem Token.modify_data (tk : Token) (f : TokenData Token → TokenData Token) :
    (tk.modify f).data = f tk.data := by
  cases tk
  rfl

@[simp]
theorem pushExpecting_pos (t : Tokenizer) (e : List String) :
    (t.pushExpecting e).pos = t.pos := rfl

@[simp]
theorem pushExpecting_line (t : Tokenizer) (e : List String) :
    (t.pushExpecting e).line = t.line := rfl

@[simp]
theorem pushExpecting_col (t : Tokenizer) (e : List String) :
    (t.pushExpecting e).col = t.col := rfl

@[simp]
theorem pushExpecting_length (t : Tokenizer) (e : List String) :
    (t.pushExpecting e).expectingStack.length = t.expectingStack.length + 1 := rfl

@[simp]
theorem popExpecting_pos (t : Tokenizer) : (t.popExpecting).pos = t.pos := by
  unfold Tokenizer.popExpecting
  split <;> rfl

@[simp]
theorem popExpecting_line (t : Tokenizer) : (t.popExpecting).line = t.line := by
  unfold Tokenizer.popExpecting
  split <;> rfl

@[simp]
theorem popExpecting_col (t : Tokenizer) : (t.popExpecting).col = t.col := by
  unfold Tokenizer.popExpecting
  split <;> rfl

@[simp]
theorem popExpecting_length (t : Tokenizer) :
    (t.popExpecting).expectingStack.length = t.expectingStack.length - 1 := by
  unfold Tokenizer.popExpecting
  split <;> simp_all

@[simp]
theorem replaceExpecting_pos (t : Tokenizer) (e : List String) :
    (t.replaceExpecting e).pos = t.pos := by
  unfold Tokenizer.replaceExpecting
  split <;> rfl

@[simp]
theorem replaceExpecting_line (t : Tokenizer) (e : List String) :
    (t.replaceExpecting e).line = t.line := by
  unfold Tokenizer.replaceExpecting
  split <;> rfl

@[simp]
theorem replaceExpecting_col (t : Tokenizer) (e : List String) :
    (t.replaceExpecting e).col = t.col := by
  unfold Tokenizer.replaceExpecting
  split <;> rfl

@[simp]
theorem replaceExpecting_length (t : Tokenizer) (e : List String) :
    (t.replaceExpecting e).expectingStack.length = t.expectingStack.length := by
  unfold Tokenizer.replaceExpecting
  split <;> simp_all

@[simp]
theorem advance_expectingStack (n : Nat) (t : Tokenizer) :
    (t.advance n).expectingStack = t.expectingStack := by
  induction n generalizing t with
  | zero => rfl
  | succ n ih =>
    unfold Tokenizer.advance
    cases t.input.get? t.pos <;> simp [ih]

@[simp]
theorem advance_tokens (n : Nat) (t : Tokenizer) :
    (t.advance n).tokens = t.tokens := by
  induction n generalizing t with
  | zero => rfl
  | succ n ih =>
    unfold Tokenizer.advance
    cases t.input.get? t.pos <;> simp [ih]

@[simp]
theorem advance_input (n : Nat) (t : Tokenizer) :
    (t.advance n).input = t.input := by
  induction n generalizing t with
  | zero => rfl
  | succ n ih =>
    unfold Tokenizer.advance
    cases t.input.get? t.pos <;> simp [ih]

@[simp]
theorem skipWSGo_expectingStack (fuel : Nat) (t : Tokenizer) (saw : Bool) :
    ((skipWSGo fuel t saw).2).expectingStack = t.expectingStack := by
  induction fuel generalizing t saw with
  | zero => rfl
  | succ fuel ih =>
    unfold skipWSGo
    repeat' split
    all_goals try simp [ih]
    all_goals (split <;> simp [ih])

@[simp]
theorem skipWSGo_tokens (fuel : Nat) (t : Tokenizer) (saw : Bool) :
    ((skipWSGo fuel t saw).2).tokens = t.tokens := by
  induction fuel generalizing t saw with
  | zero => rfl
  | succ fuel ih =>
    unfold skipWSGo
    repeat' split
    all_goals try simp [ih]
    all_goals (split <;> simp [ih])

/-- C7 (amended): consuming one rune advances the position by one rune; a
`'\n'` resets the column to 1 and increments the line, and any other rune —
including `'\r'`, which therefore contributes only one line increment to a
`'\r\n'` pair — adds its UTF-8 byte width to the column (one per byte, not
one per rune); the line is otherwise unchanged. -/
theorem C7_column_per_byte (t : Tokenizer) (c : Char)
    (h : t.input.get? t.pos = some c) :
    t.advance 1 =
      { t with
        pos := t.pos + 1
        line := if c = '\n' then t.line + 1 else t.line
        col := if c = '\n' then 1 else t.col + c.utf8Size } := by
  unfold Tokenizer.advance
  rw [h]
  rfl

/-- C7 (witness): the theorem applied to the start of input `"ab"`. -/
theorem C7_column_per_byte_witness :
    (newTokenizer "ab").input.get? (newTokenizer "ab").pos = some 'a' ∧
    (newTokenizer "ab").advance 1 =
      { newTokenizer "ab" with
        pos := (newTokenizer "ab").pos + 1
        line := if 'a' = '\n' then (newTokenizer "ab").line + 1
                else (newTokenizer "ab").line
        col := if 'a' = '\n' then 1
               else (newTokenizer "ab").col + ('a').utf8Size } :=
  ⟨rfl, C7_column_per_byte (newTokenizer "ab") 'a' rfl⟩

/-- C8: adding an accepted token — which includes the look-ahead over
whitespace and comments that computes `ln_after` — leaves the cursor
untouched: the position, line and column after `addTokenAndManageStack`
equal their values before it, so the next token is matched from the same
place. -/
theorem C8_lnafter_peek_is_pure (t : Tokenizer) (tok : Token) (t' : Tokenizer)
    (h : t.addTokenAndManageStack tok = .ok t') :
    t'.pos = t.pos ∧ t'.line = t.line ∧ t'.col = t.col := by
  unfold Tokenizer.addTokenAndManageStack at h
  dsimp only at h
  repeat' split at h
  all_goals try (injection h with h; subst h)
  all_goals first
    | exact absurd h (by simp)
    | simp [Tokenizer.pushExpecting]

/-- C8 (witness): the theorem applied to a fresh tokenizer on `"ab"` and a
variable token. -/
theorem C8_lnafter_peek_is_pure_witness :
    ∃ t', (newTokenizer "ab").addTokenAndManageStack
        (NewToken "a" TokenType.V ⟨⟨1, 1⟩, ⟨1, 2⟩⟩) = .ok t' ∧
      (t'.pos = (newTokenizer "ab").pos ∧ t'.line = (newTokenizer "ab").line ∧
       t'.col = (newTokenizer "ab").col) := by
  refine ⟨_, rfl, C8_lnafter_peek_is_pure (newTokenizer "ab")
    (NewToken "a" TokenType.V ⟨⟨1, 1⟩, ⟨1, 2⟩⟩) _ rfl⟩

@[simp]
theorem lnAfterMark_type (tok : Token) (c : Prop) [Decidable c] :
    ((if c then tok.modify (fun d => { d with lnAfter := some true })
      else tok)).data.type = tok.data.type := by
  split <;> simp

@[simp]
theorem lnAfterMark_expecting (tok : Token) (c : Prop) [Decidable c] :
    ((if c then tok.modify (fun d => { d with lnAfter := some true })
      else tok)).data.expecting = tok.data.expecting := by
  split <;> simp

@[simp]
theorem lnAfterMark_reason (tok : Token) (c : Prop) [Decidable c] :
    ((if c then tok.modify (fun d => { d with lnAfter := some true })
      else tok)).data.reason = tok.data.reason := by
  split <;> simp

theorem commentMatch_ne_hash (c : Char) (rest : List Char) (hc : ¬ c = '#') :
    commentMatch (c :: rest) = [] := by
  unfold commentMatch
  split
  · rename_i heq
    injection heq with h1 _
    exact absurd h1 hc
  · rfl

theorem charsFrom_cons (t : Tokenizer) (c : Char)
    (h : t.input.get? t.pos = some c) :
    t.charsFrom = c :: t.input.drop (t.pos + 1) := by
  unfold Tokenizer.charsFrom
  rcases List.get?_eq_some.mp h with ⟨hlt, hget⟩
  rw [List.drop_eq_getElem_cons hlt]
  have hget := (List.get?_eq_some.mp h).2
  simp only [List.get_eq_getElem] at hget
  rw [hget]

theorem pos_lt_of_get? (t : Tokenizer) (c : Char)
    (h : t.input.get? t.pos = some c) : t.pos < t.input.length :=
  (List.get?_eq_some.mp h).1

/-- `skipWhitespaceAndComments` does not move when the cursor stands on a
rune that is neither whitespace nor a `#`. -/
theorem skipWS_no_skip (t : Tokenizer) (c : Char)
    (h : t.input.get? t.pos = some c) (hsp : goIsSpace c = false)
    (hh : ¬ c = '#') :
    t.skipWhitespaceAndComments = (false, t) := by
  unfold Tokenizer.skipWhitespaceAndComments
  rcases List.get?_eq_some.mp h with ⟨hlt, hget⟩
  simp only [List.get_eq_getElem] at hget
  rw [skipWSGo]
  simp [hlt, charsFrom_cons t c h, commentMatch_ne_hash c _ hh,
        Tokenizer.peek, h, hget, hsp]

/-- C3 (amended): `addTokenAndManageStack` manages the expectation stack so
that after an End token the depth is the truncated decrement of the previous
depth — strictly smaller exactly when the stack was non-empty, unchanged at
zero when it was empty; after a Start token with non-empty `expecting` the
depth is strictly greater (by one); after a Bridge token it is unchanged. -/
theorem C3_stack_transitions (t : Tokenizer) (tok : Token) (t' : Tokenizer)
    (h : t.addTokenAndManageStack tok = .ok t') :
    (tok.type = TokenType.E →
       t'.expectingStack.length = t.expectingStack.length - 1) ∧
    (tok.type = TokenType.S → ((tok.data.expecting).getD []).length > 0 →
       t'.expectingStack.length = t.expectingStack.length + 1) ∧
    (tok.type = TokenType.B →
       t'.expectingStack.length = t.expectingStack.length) := by
  refine ⟨fun hE => ?_, fun hS hexp => ?_, fun hB => ?_⟩
  · simp only [Token.type] at hE
    unfold Tokenizer.addTokenAndManageStack at h
    dsimp only at h
    simp [hE] at h
    subst h
    simp [Tokenizer.skipWhitespaceAndComments]
  · simp only [Token.type] at hS
    unfold Tokenizer.addTokenAndManageStack at h
    dsimp only at h
    simp [hS, hexp] at h
    subst h
    simp [Tokenizer.skipWhitespaceAndComments, Tokenizer.pushExpecting]
  · simp only [Token.type] at hB
    unfold Tokenizer.addTokenAndManageStack at h
    dsimp only at h
    simp [hB] at h
    split at h <;>
      (injection h with h; subst h; simp [Tokenizer.skipWhitespaceAndComments])

/-- C3 (witness): the theorem applied to an End token on a stack of depth
one. -/
theorem C3_stack_transitions_witness :
    ∃ t', endProbe.addTokenAndManageStack
        (NewToken "end" TokenType.E ⟨⟨1, 1⟩, ⟨1, 4⟩⟩) = .ok t' ∧
      (((NewToken "end" TokenType.E ⟨⟨1, 1⟩, ⟨1, 4⟩⟩).type = TokenType.E →
         t'.expectingStack.length = endProbe.expectingStack.length - 1) ∧
       ((NewToken "end" TokenType.E ⟨⟨1, 1⟩, ⟨1, 4⟩⟩).type = TokenType.S →
         (((NewToken "end" TokenType.E ⟨⟨1, 1⟩, ⟨1, 4⟩⟩).data.expecting).getD
             []).length > 0 →
         t'.expectingStack.length = endProbe.expectingStack.length + 1) ∧
       ((NewToken "end" TokenType.E ⟨⟨1, 1⟩, ⟨1, 4⟩⟩).type = TokenType.B →
         t'.expectingStack.length = endProbe.expectingStack.length)) := by
  refine ⟨_, rfl, C3_stack_transitions endProbe
    (NewToken "end" TokenType.E ⟨⟨1, 1⟩, ⟨1, 4⟩⟩) _ rfl⟩

/-- C1 (amended): when a wildcard lexeme is classified while the expectation
stack's head list is non-empty with first element `E`, the emitted token is
a Bridge token with `E`'s `expecting`, `in` and `arity` and `alias = E` when
`E` names a Bridge rule, and otherwise an Unclassified token — the Start and
`end`-prefix cases of the spec do not exist in the code. -/
theorem C1_wildcard_resolution (t : Tokenizer) (isId : Bool) (text : String)
    (entry : CustomRuleEntry) (E : String) (es : List String)
    (h1 : t.nextIdOrOp = some (isId, text))
    (h2 : lookupAL t.rules.tokenLookup text = some entry)
    (h3 : entry.type = CustomRuleType.customWildcard)
    (h4 : t.getCurrentlyExpected = some (E :: es)) :
    (∀ bd, lookupAL t.rules.bridgeTokens E = some bd →
       t.matchCustomRules =
         .found (NewWildcardBridgeToken text E bd.expecting bd.inn bd.arity
             ⟨⟨0, 0⟩, ⟨t.line, t.col + byteLen text⟩⟩)
           (t.advance text.toList.length)) ∧
    (lookupAL t.rules.bridgeTokens E = none →
       t.matchCustomRules =
         .found (NewToken text TokenType.U
             ⟨⟨0, 0⟩, ⟨t.line, t.col + byteLen text⟩⟩)
           (t.advance text.toList.length)) := by
  constructor
  · intro bd hbd
    unfold Tokenizer.matchCustomRules
    simp [h1, h2, h3, h4, hbd]
  · intro hnone
    unfold Tokenizer.matchCustomRules
    simp [h1, h2, h3, h4, hnone]

/-- C1 (witness): the theorem applied to a `:` lexeme while `"then"` is
expected, which resolves to a Bridge token aliasing `then`. -/
theorem C1_wildcard_resolution_witness :
    wildcardProbe.nextIdOrOp = some (false, ":") ∧
    lookupAL wildcardProbe.rules.tokenLookup ":" =
      some (⟨.customWildcard, .noData⟩ : CustomRuleEntry) ∧
    wildcardProbe.getCurrentlyExpected = some ("then" :: []) ∧
    lookupAL wildcardProbe.rules.bridgeTokens "then" =
      some (⟨["case", "elseif", "else", "end", "endif", "endifnot",
              "endswitch", "endcase"], ["if", "ifnot", "switch"],
             .many⟩ : BridgeTokenData) ∧
    wildcardProbe.matchCustomRules =
      .found (NewWildcardBridgeToken ":" "then"
          ["case", "elseif", "else", "end", "endif", "endifnot",
           "endswitch", "endcase"] ["if", "ifnot", "switch"] .many
          ⟨⟨0, 0⟩, ⟨wildcardProbe.line, wildcardProbe.col + byteLen ":"⟩⟩)
        (wildcardProbe.advance ":".toList.length) := by
  refine ⟨rfl, by decide, rfl, by decide,
    (C1_wildcard_resolution wildcardProbe false ":" ⟨.customWildcard, .noData⟩
      "then" [] rfl (by decide) rfl rfl).1
      (⟨["case", "elseif", "else", "end", "endif", "endifnot",
         "endswitch", "endcase"], ["if", "ifnot", "switch"],
        .many⟩ : BridgeTokenData) (by decide)⟩

/-- C1 (counterexample): on input `"def : :"` the second `:` is classified
while the expectation head is `["end", "enddef", "endfn"]`, whose first
element `"end"` begins with the literal prefix `end`; the spec's case
analysis then demands an End token with `alias = "end"`, but the code emits
a plain Unclassified token with no alias. -/
theorem C1_counterexample :
    runTokenTypes "def : :" = [TokenType.S, TokenType.B, TokenType.U] ∧
    runTokenAlias "def : :" 1 = some (some "=>>") ∧
    runTokenAlias "def : :" 2 = some none ∧
    ¬ TokenType.U = TokenType.E := by
  decide

/-- C2 (code bug, evaluation): on the unterminated string `"abc` the run
fails, yet the returned token sequence is empty — no Exception token is
materialized, contradicting the documented propagation policy. -/
theorem C2_no_exception_token :
    (runTokens "\"abc").length = 0 ∧ (runErr "\"abc").isSome = true := by
  decide

/-- C3 (counterexample): tokenizing `"end"` processes an End token while the
expectation stack is empty; the depth is 0 both before and after the token,
not strictly smaller afterwards. -/
theorem C3_counterexample :
    nextTokenOkTypes "end" = some [TokenType.E] ∧
    nextTokenOkDepth "end" = some ((newTokenizer "end").expectingStack.length) := by
  decide

/-- C4 (counterexample): tokenizing `10rAB` does halt with a single
Exception token spanning the whole lexeme, but its reason is
`"invalid numeric literal: invalid literal"`, not exactly
`"invalid literal"`. -/
theorem C4_counterexample :
    runTokenTypes "10rAB" = [TokenType.X] ∧
    runTokenReason "10rAB" 0 =
      some (some "invalid numeric literal: invalid literal") ∧
    ¬ (some (some "invalid literal") = runTokenReason "10rAB" 0) := by
  decide

/-- C4 (amended): for every tokenizer state and every numeric token, any
invalid digit for the base — in the mantissa, or in a non-empty fraction —
demotes the token to an Exception: `addTokenAndManageStack` appends an
Exception token carrying the token's text and span with reason
`"invalid numeric literal: invalid literal"` and halts the run. -/
theorem C4_invalid_digit_demotes (t : Tokenizer) (tok : Token) (base : Int)
    (mantissa : String)
    (hn : tok.data.type = TokenType.n)
    (hb : tok.data.base = some base)
    (hm : tok.data.mantissa = some mantissa)
    (hd : isValidDigitsForRadix mantissa base
        (tok.data.balanced = some true) = false ∨
      ∃ f, tok.data.fraction = some f ∧ ¬ f = "" ∧
        isValidDigitsForRadix f base
          (tok.data.balanced = some true) = false) :
    t.addTokenAndManageStack tok =
      .err ("tokenisation error: " ++ "invalid numeric literal: " ++
          "invalid literal")
        { t with tokens := t.tokens ++
            [NewExceptionToken tok.data.text
              ("invalid numeric literal: " ++ "invalid literal")
              tok.data.span] } := by
  have hv : tok.isValidNumber = (false, "invalid literal") := by
    unfold Token.isValidNumber
    rw [if_neg (by simp [hn])]
    rw [hb, hm]
    dsimp only
    by_cases hp : numericPrefixOk tok.data.text.toList = true
    · rw [if_neg (fun hc => hc hp)]
      by_cases hmv : isValidDigitsForRadix mantissa base
          (decide (tok.data.balanced = some true)) = true
      · rw [if_neg (fun hc => hc hmv)]
        rcases hd with hmant | ⟨f, hf, hfne, hfd⟩
        · rw [hmant] at hmv
          cases hmv
        · rw [hf]
          dsimp only
          rw [if_pos ⟨hfne, by simp [hfd]⟩]
      · rw [if_pos hmv]
    · rw [if_pos hp]
  unfold Tokenizer.addTokenAndManageStack
  dsimp only
  rw [if_pos hn, hv]
  rfl

/-- C4 (witness): the theorem applied to the token `matchNumeric` emits for
`10rAB` — an `A` is no digit of base 10 — together with the end-to-end run
on `10rAB`: a single Exception token with the full-lexeme span, reason
`"invalid numeric literal: invalid literal"`, and a halted run. -/
theorem C4_invalid_digit_demotes_witness :
    c4tok.data.type = TokenType.n ∧
    c4tok.data.base = some 10 ∧
    c4tok.data.mantissa = some "AB" ∧
    (isValidDigitsForRadix "AB" 10
        (c4tok.data.balanced = some true) = false ∨
      ∃ f, c4tok.data.fraction = some f ∧ ¬ f = "" ∧
        isValidDigitsForRadix f 10
          (c4tok.data.balanced = some true) = false) ∧
    (newTokenizer "10rAB").addTokenAndManageStack c4tok =
      .err ("tokenisation error: " ++ "invalid numeric literal: " ++
          "invalid literal")
        { newTokenizer "10rAB" with
          tokens := (newTokenizer "10rAB").tokens ++
            [NewExceptionToken c4tok.data.text
              ("invalid numeric literal: " ++ "invalid literal")
              c4tok.data.span] } ∧
    runTokenTexts "10rAB" = ["10rAB"] ∧
    runTokenTypes "10rAB" = [TokenType.X] ∧
    runTokenReason "10rAB" 0 =
      some (some "invalid numeric literal: invalid literal") ∧
    runTokenSpan "10rAB" 0 = some ⟨⟨1, 1⟩, ⟨1, 6⟩⟩ ∧
    (runErr "10rAB").isSome = true := by
  refine ⟨rfl, rfl, rfl, Or.inl (by decide),
    C4_invalid_digit_demotes (newTokenizer "10rAB") c4tok 10 "AB" rfl rfl rfl
      (Or.inl (by decide)),
    by decide, by decide, by decide, by decide, by decide⟩

/-- C5 (counterexample): the decimal literal `1e0` has a zero exponent, so
the emitted token carries no exponent field; its text with underscores
removed is `"1e0"`, but the concatenation of the emitted fields is `"1"`. -/
theorem C5_counterexample :
    ((newTokenizer "1e0").matchNumeric).map (fun p => p.1.type) =
      some TokenType.n ∧
    ((newTokenizer "1e0").matchNumeric).map (fun p => p.1.text) = some "1e0" ∧
    ((newTokenizer "1e0").matchNumeric).map
      (fun p => stripUnderscores p.1.text) = some "1e0" ∧
    ((newTokenizer "1e0").matchNumeric).map (fun p => specNumericConcat p.1) =
      some "1" ∧
    ¬ ("1e0" : String) = "1" := by
  decide

/-- C6 (counterexample): `"Hello, \(name)!"` yields one interpolated string
token, but its expression sub-token's text is `"(name)"` — the interior
including the brackets — not `name`. -/
theorem C6_counterexample :
    runTokenTypes "\"Hello, \\(name)!\"" = [TokenType.i] ∧
    runSubTypes "\"Hello, \\(name)!\"" 0 =
      some [TokenType.s, TokenType.e, TokenType.s] ∧
    runSubTexts "\"Hello, \\(name)!\"" 0 =
      some ["\"Hello, \\", "(name)", "!\""] ∧
    ¬ (some ["\"Hello, \\", "name", "!\""] =
        runSubTexts "\"Hello, \\(name)!\"" 0) := by
  decide

/-- C6 (amended): `"Hello, \(name)!"` yields exactly one interpolated string
token whose sub-token list is: a string sub-token with value `"Hello, "`,
then an expression sub-token whose text is `"(name)"` (the bracketed
interpolation source), then a string sub-token with value `"!"`. -/
theorem C6_interpolation :
    runTokenTypes "\"Hello, \\(name)!\"" = [TokenType.i] ∧
    runSubTypes "\"Hello, \\(name)!\"" 0 =
      some [TokenType.s, TokenType.e, TokenType.s] ∧
    runSubValues "\"Hello, \\(name)!\"" 0 =
      some [some "Hello, ", some "(name)", some "!"] ∧
    runSubTexts "\"Hello, \\(name)!\"" 0 =
      some ["\"Hello, \\", "(name)", "!\""] ∧
    (runErr "\"Hello, \\(name)!\"").isSome = false := by
  decide

/-- C7 (counterexample): consuming the single two-byte rune `£` advances the
column from 1 to 3 (one per byte), not to 2 (one per rune). -/
theorem C7_counterexample :
    ((newTokenizer "£").advance 1).pos = 1 ∧
    ((newTokenizer "£").advance 1).col = 3 ∧
    ¬ ((newTokenizer "£").advance 1).col = (newTokenizer "£").col + 1 := by
  decide

theorem asString_append (a b : List Char) :
    (a ++ b).asString = a.asString ++ b.asString := rfl

theorem asString_inj {a b : List Char} : a.asString = b.asString ↔ a = b :=
  ⟨fun h => congrArg String.data h, fun h => by rw [h]⟩

theorem stripUnderscores_asString (l : List Char) :
    stripUnderscores l.asString = (l.filter (fun c => ¬ c = '_')).asString := rfl

theorem isDigit_ne_underscore {a : Char} (h : a.isDigit = true) : ¬ a = '_' := by
  rcases eq_or_ne a '_' with rfl | hne
  · simp at h
  · exact hne

theorem isUpperHex_ne_underscore {a : Char} (h : isUpperHexDigit a = true) :
    ¬ a = '_' := by
  rcases eq_or_ne a '_' with rfl | hne
  · simp [isUpperHexDigit] at h
  · exact hne

theorem filter_takeWhile_ne_underscore (p : Char → Bool) (l : List Char)
    (hp : ∀ a, p a = true → ¬ a = '_') :
    (l.takeWhile p).filter (fun c => ¬ c = '_') = l.takeWhile p :=
  List.filter_eq_self.mpr fun a ha => by
    simpa using hp a (List.mem_takeWhile_imp ha)

theorem exponentGroupMatch_clean (cs : List Char) :
    (exponentGroupMatch cs).filter (fun c => ¬ c = '_') =
      exponentGroupMatch cs := by
  apply List.filter_eq_self.mpr
  intro a ha
  unfold exponentGroupMatch at ha
  split at ha
  · dsimp only at ha
    split at ha
    · simp at ha
    · rename_i hne
      rcases List.mem_append.mp ha with hs | hd
      · -- a is in the optional sign
        revert hs
        split <;> intro hs <;> simp_all
      · simpa using isDigit_ne_underscore (List.mem_takeWhile_imp hd)
  · simp at ha

theorem decimalRegexMatch_decomp (cs : List Char) (m : DecMatch)
    (h : decimalRegexMatch cs = some m) :
    (m.fracGroup = [] ∨ ∃ r, m.fracGroup = '.' :: r) ∧
    m.expGroup.filter (fun c => ¬ c = '_') = m.expGroup := by
  unfold decimalRegexMatch at h
  dsimp only at h
  split at h
  · cases h
  · injection h with h
    subst h
    constructor
    · dsimp only
      split
      · exact Or.inr ⟨_, rfl⟩
      · exact Or.inl rfl
    · exact exponentGroupMatch_clean _

theorem radixRegexMatch_decomp (cs : List Char) (m : RadixMatch)
    (h : radixRegexMatch cs = some m) :
    m.radixPart.filter (fun c => ¬ c = '_') = m.radixPart ∧
    (m.fracGroup = [] ∨ ∃ r, m.fracGroup = '.' :: r) ∧
    m.expGroup.filter (fun c => ¬ c = '_') = m.expGroup := by
  unfold radixRegexMatch at h
  dsimp only at h
  split at h
  · cases h
  · split at h
    · split at h
      · split at h
        · cases h
        · injection h with h
          subst h
          refine ⟨?_, ?_, exponentGroupMatch_clean _⟩
          · dsimp only
            rw [List.filter_append]
            rw [filter_takeWhile_ne_underscore Char.isDigit cs
                  fun a ha => isDigit_ne_underscore ha]
            rename_i c r1 heq hdis hhs
            have hcne : ¬ c = '_' := by
              rcases hdis with rfl | rfl | rfl | rfl | rfl <;> decide
            simp [hcne]
          · dsimp only
            split
            · exact Or.inr ⟨_, rfl⟩
            · exact Or.inl rfl
      · cases h
    · cases h

/-- `if s = "" then s else stripUnderscores s` is `stripUnderscores s`. -/
theorem fracIf_eq_strip (s : String) :
    (if s = "" then s else stripUnderscores s) = stripUnderscores s := by
  split
  · rename_i hs
    subst hs
    rfl
  · rfl

/-- The token fields produced by the shared tail of `parseRadixNumber`, when
the result is a numeric (not exception) token. -/
theorem finishRadixNumber_fields (t : Tokenizer) (full pre : String)
    (base : Int) (mant frac expo : String) (tok : Token) (t' : Tokenizer)
    (h : t.finishRadixNumber full pre base mant frac expo = (tok, t'))
    (hn : tok.data.type = TokenType.n) :
    tok.data.text = full ∧ tok.data.radix = some pre ∧
    tok.data.mantissa = some (stripUnderscores mant) ∧
    tok.data.fraction =
      (if stripUnderscores frac = "" then none
       else some (stripUnderscores frac)) ∧
    ((expo = "" ∧ tok.data.exponent = none) ∨
      (¬ expo = "" ∧ ∃ v, atoi expo.toList = some v ∧
        tok.data.exponent = (if v = 0 then none else some v))) := by
  unfold Tokenizer.finishRadixNumber at h
  dsimp only at h
  rw [fracIf_eq_strip] at h
  split at h
  · rename_i hexp
    injection h with h _
    subst h
    exact ⟨rfl, rfl, rfl, rfl, Or.inl ⟨hexp, rfl⟩⟩
  · rename_i hexp
    split at h
    · rename_i v hv
      injection h with h _
      subst h
      exact ⟨rfl, rfl, rfl, rfl, Or.inr ⟨hexp, v, hv, rfl⟩⟩
    · injection h with h _
      subst h
      simp [Tokenizer.createExceptionToken, NewExceptionToken] at hn

/-- The token fields produced by `parseDecimalNumber`, when the result is a
numeric (not exception) token. -/
theorem parseDecimalNumber_fields (t : Tokenizer) (m : DecMatch) (tok : Token)
    (t' : Tokenizer) (h : t.parseDecimalNumber m = (tok, t'))
    (hn : tok.data.type = TokenType.n) :
    tok.data.text = m.full.asString ∧ tok.data.radix = some "" ∧
    tok.data.mantissa = some (stripUnderscores m.mantissa.asString) ∧
    tok.data.fraction =
      (if stripUnderscores (if m.fracGroup.isEmpty then ""
          else (m.fracGroup.drop 1).asString) = "" then none
       else some (stripUnderscores (if m.fracGroup.isEmpty then ""
          else (m.fracGroup.drop 1).asString))) ∧
    ((m.expGroup.asString = "" ∧ tok.data.exponent = none) ∨
      (¬ m.expGroup.asString = "" ∧ ∃ v, atoi m.expGroup.asString.toList = some v ∧
        tok.data.exponent = (if v = 0 then none else some v))) := by
  unfold Tokenizer.parseDecimalNumber at h
  dsimp only at h
  rw [fracIf_eq_strip] at h
  split at h
  · rename_i hexp
    injection h with h _
    subst h
    exact ⟨rfl, rfl, rfl, rfl, Or.inl ⟨hexp, rfl⟩⟩
  · rename_i hexp
    split at h
    · rename_i v hv
      injection h with h _
      subst h
      exact ⟨rfl, rfl, rfl, rfl, Or.inr ⟨hexp, v, hv, rfl⟩⟩
    · injection h with h _
      subst h
      simp [Tokenizer.createExceptionToken, NewExceptionToken] at hn

/-- The underscore-transparency conclusion, derived from the token fields
and the regex-group decomposition shared by the decimal and radix paths. -/
theorem transparency_close (tok : Token)
    (radixPart mant frG exG : List Char) (PRE : String)
    (hPRE : radixPart.filter (fun c => ¬ c = '_') = radixPart)
    (hPREs : radixPart.asString = PRE)
    (htext : tok.data.text =
      (radixPart ++ mant ++ frG ++
        (if exG.isEmpty then [] else 'e' :: exG)).asString)
    (hradix : tok.data.radix = some PRE)
    (hmant : tok.data.mantissa = some (stripUnderscores mant.asString))
    (hfrshape : frG = [] ∨ ∃ r, frG = '.' :: r)
    (hfrac : tok.data.fraction =
      (if stripUnderscores (if frG.isEmpty then ""
          else (frG.drop 1).asString) = "" then none
       else some (stripUnderscores (if frG.isEmpty then ""
          else (frG.drop 1).asString))))
    (hexpclean : exG.filter (fun c => ¬ c = '_') = exG)
    (hexp : (exG.asString = "" ∧ tok.data.exponent = none) ∨
      (¬ exG.asString = "" ∧ ∃ v, atoi exG.asString.toList = some v ∧
        tok.data.exponent = (if v = 0 then none else some v))) :
    ∃ fr ex : String,
      stripUnderscores tok.data.text =
        (tok.data.radix).getD "" ++ (tok.data.mantissa).getD "" ++ fr ++ ex ∧
      ((fr = "" ∧ tok.data.fraction = none) ∨
        ∃ f, fr = "." ++ f ∧
          tok.data.fraction = (if f = "" then none else some f)) ∧
      ((ex = "" ∧ tok.data.exponent = none) ∨
        ∃ d v, ex = "e" ++ d ∧ atoi d.toList = some v ∧
          tok.data.exponent = (if v = 0 then none else some v)) := by
  refine ⟨(frG.filter (fun c => ¬ c = '_')).asString,
          (if exG.isEmpty then "" else "e" ++ exG.asString), ?_, ?_, ?_⟩
  · rw [htext, hradix, hmant]
    rw [stripUnderscores_asString]
    simp only [List.filter_append]
    rw [asString_append, asString_append, asString_append]
    rw [hPRE, hPREs]
    simp only [Option.getD_some]
    rw [stripUnderscores_asString]
    have hlast : ((if exG.isEmpty then [] else 'e' :: exG).filter
        (fun c => ¬ c = '_')).asString =
        (if exG.isEmpty then "" else "e" ++ exG.asString) := by
      cases hE : exG.isEmpty
      · have hcons : ('e' :: exG).filter (fun c => ¬ c = '_') =
            'e' :: exG.filter (fun c => ¬ c = '_') := by simp
        show (('e' :: exG).filter (fun c => ¬ c = '_')).asString =
          "e" ++ exG.asString
        rw [hcons, hexpclean]
        rfl
      · rfl
    rw [hlast]
  · rcases hfrshape with hfr0 | ⟨r, hfrc⟩
    · subst hfr0
      exact Or.inl ⟨rfl, by simpa using hfrac⟩
    · subst hfrc
      refine Or.inr ⟨(r.filter (fun c => ¬ c = '_')).asString, ?_, ?_⟩
      · have : ('.' :: r).filter (fun c => ¬ c = '_') =
            '.' :: r.filter (fun c => ¬ c = '_') := by
          simp
        rw [this]
        rfl
      · rw [hfrac]
        rw [show (if ('.' :: r).isEmpty then ""
              else (('.' :: r).drop 1).asString) = r.asString from rfl]
        rw [stripUnderscores_asString]
  · rcases hexp with ⟨he, hnone⟩ | ⟨hne, v, hv, hfield⟩
    · have hnil : exG = [] := asString_inj.mp he
      subst hnil
      exact Or.inl ⟨rfl, hnone⟩
    · have hE : exG.isEmpty = false := by
        rcases exG with _ | ⟨a, as⟩
        · exact absurd rfl hne
        · rfl
      rw [hE]
      exact Or.inr ⟨exG.asString, v, by simp, hv, hfield⟩

/-- C5 (amended): for every numeric token emitted by `matchNumeric`, the
token's text with all underscores removed equals the concatenation of its
radix prefix, its mantissa, a fraction part (`"."` followed by the cleaned
fraction digits; the `fraction` field is those digits, omitted when empty),
and an exponent part (`"e"` followed by the matched exponent digits with
their sign; the `exponent` field is their parsed value, omitted when the
value is zero — not only when the part is absent). -/
theorem C5_underscore_transparency (t : Tokenizer) (tok : Token)
    (t' : Tokenizer) (h : t.matchNumeric = some (tok, t'))
    (hn : tok.data.type = TokenType.n) :
    ∃ fr ex : String,
      stripUnderscores tok.data.text =
        (tok.data.radix).getD "" ++ (tok.data.mantissa).getD "" ++ fr ++ ex ∧
      ((fr = "" ∧ tok.data.fraction = none) ∨
        ∃ f, fr = "." ++ f ∧
          tok.data.fraction = (if f = "" then none else some f)) ∧
      ((ex = "" ∧ tok.data.exponent = none) ∨
        ∃ d v, ex = "e" ++ d ∧ atoi d.toList = some v ∧
          tok.data.exponent = (if v = 0 then none else some v)) := by
  unfold Tokenizer.matchNumeric at h
  split at h
  · -- radix literal
    rename_i m hm
    injection h with h
    obtain ⟨hclean, hfrshape, hexpclean⟩ := radixRegexMatch_decomp _ _ hm
    unfold Tokenizer.parseRadixNumber at h
    dsimp only at h
    split at h
    · -- radix part ends in x
      split at h
      · rename_i hpre
        obtain ⟨htext, hradix, hmant, hfrac, hexp⟩ :=
          finishRadixNumber_fields _ _ _ _ _ _ _ _ _ h hn
        exact transparency_close tok m.radixPart m.mantissa m.fracGroup
          m.expGroup "0x" hclean hpre htext hradix hmant hfrshape hfrac
          hexpclean hexp
      · injection h with h1 _
        subst h1
        simp [Tokenizer.createExceptionToken, NewExceptionToken] at hn
    · -- radix part ends in o
      split at h
      · rename_i hpre
        obtain ⟨htext, hradix, hmant, hfrac, hexp⟩ :=
          finishRadixNumber_fields _ _ _ _ _ _ _ _ _ h hn
        exact transparency_close tok m.radixPart m.mantissa m.fracGroup
          m.expGroup "0o" hclean hpre htext hradix hmant hfrshape hfrac
          hexpclean hexp
      · injection h with h1 _
        subst h1
        simp [Tokenizer.createExceptionToken, NewExceptionToken] at hn
    · -- radix part ends in b
      split at h
      · rename_i hpre
        obtain ⟨htext, hradix, hmant, hfrac, hexp⟩ :=
          finishRadixNumber_fields _ _ _ _ _ _ _ _ _ h hn
        exact transparency_close tok m.radixPart m.mantissa m.fracGroup
          m.expGroup "0b" hclean hpre htext hradix hmant hfrshape hfrac
          hexpclean hexp
      · injection h with h1 _
        subst h1
        simp [Tokenizer.createExceptionToken, NewExceptionToken] at hn
    · -- radix part ends in t: balanced ternary, same field shape
      split at h
      · rename_i hpre
        rw [fracIf_eq_strip] at h
        split at h
        · rename_i hexp0
          injection h with h1 _
          subst h1
          exact transparency_close _ m.radixPart m.mantissa m.fracGroup
            m.expGroup "0t" hclean hpre rfl rfl rfl hfrshape rfl hexpclean
            (Or.inl ⟨hexp0, rfl⟩)
        · rename_i hexpne
          split at h
          · rename_i v hv
            injection h with h1 _
            subst h1
            exact transparency_close _ m.radixPart m.mantissa m.fracGroup
              m.expGroup "0t" hclean hpre rfl rfl rfl hfrshape rfl hexpclean
              (Or.inr ⟨hexpne, v, hv, rfl⟩)
          · injection h with h1 _
            subst h1
            simp [Tokenizer.createExceptionToken, NewExceptionToken] at hn
      · injection h with h1 _
        subst h1
        simp [Tokenizer.createExceptionToken, NewExceptionToken] at hn
    · -- radix part ends in r: explicit radix
      split at h
      · injection h with h1 _
        subst h1
        simp [Tokenizer.createExceptionToken, NewExceptionToken] at hn
      · split at h
        · injection h with h1 _
          subst h1
          simp [Tokenizer.createExceptionToken, NewExceptionToken] at hn
        · obtain ⟨htext, hradix, hmant, hfrac, hexp⟩ :=
            finishRadixNumber_fields _ _ _ _ _ _ _ _ _ h hn
          exact transparency_close tok m.radixPart m.mantissa m.fracGroup
            m.expGroup m.radixPart.asString hclean rfl htext hradix hmant
            hfrshape hfrac hexpclean hexp
    · -- no recognised radix letter
      injection h with h1 _
      subst h1
      simp [Tokenizer.createExceptionToken, NewExceptionToken] at hn
  · -- decimal literal
    split at h
    · rename_i m hm
      injection h with h
      obtain ⟨hfrshape, hexpclean⟩ := decimalRegexMatch_decomp _ _ hm
      obtain ⟨htext, hradix, hmant, hfrac, hexp⟩ :=
        parseDecimalNumber_fields _ _ _ _ h hn
      exact transparency_close tok [] m.mantissa m.fracGroup m.expGroup ""
        rfl rfl htext hradix hmant hfrshape hfrac hexpclean hexp
    · cases h

theorem C5_underscore_transparency_witness :
    (newTokenizer "1_2.3_4e5").matchNumeric =
      some (c5tok, (newTokenizer "1_2.3_4e5").advance 9) ∧
    c5tok.data.type = TokenType.n ∧
    ∃ fr ex : String,
      stripUnderscores c5tok.data.text =
        (c5tok.data.radix).getD "" ++ (c5tok.data.mantissa).getD "" ++
          fr ++ ex ∧
      ((fr = "" ∧ c5tok.data.fraction = none) ∨
        ∃ f, fr = "." ++ f ∧
          c5tok.data.fraction = (if f = "" then none else some f)) ∧
      ((ex = "" ∧ c5tok.data.exponent = none) ∨
        ∃ d v, ex = "e" ++ d ∧ atoi d.toList = some v ∧
          c5tok.data.exponent = (if v = 0 then none else some v)) := by
  have h : (newTokenizer "1_2.3_4e5").matchNumeric =
      some (c5tok, (newTokenizer "1_2.3_4e5").advance 9) := rfl
  exact ⟨h, rfl, C5_underscore_transparency _ _ _ h rfl⟩

/-- C10: when the rune at the cursor is `@`, `nextToken` unconditionally
enters the raw-string matcher; if after the `@` and an optional identifier
tag the next rune is not an opening quote character (or the input ends), the
step fails with an error and the tokenizer state — its token list included —
is left exactly as it was: no token is emitted for the `@`. -/
theorem C10_at_requires_quote (t : Tokenizer)
    (h1 : t.input.get? t.pos = some '@')
    (h2 : ((((t.consumeAtAndTag).2.peek).map isOpeningQuoteChar).getD false) =
      false) :
    ∃ msg, t.nextToken = .err msg t := by
  have hpos : t.pos < t.input.length := pos_lt_of_get? t '@' h1
  have hskip : t.skipWhitespaceAndComments = (false, t) :=
    skipWS_no_skip t '@' h1 (by decide) (by decide)
  unfold Tokenizer.nextToken
  rw [hskip]
  dsimp only
  rw [if_neg (by simpa using hpos)]
  unfold Tokenizer.matchString
  rw [if_neg (by simp [Tokenizer.hasMoreInput, hpos])]
  simp only [Tokenizer.peek, h1]
  rw [if_pos (by decide)]
  rw [if_pos trivial]
  unfold Tokenizer.matchRawString
  dsimp only
  cases hp : ((t.consumeAtAndTag).2).peek with
  | none => simp [hp]
  | some c =>
    rw [hp] at h2
    simp at h2
    simp [hp, h2]

/-- C10 (witness): the theorem applied to the input `"@foo+"`, whose tag
`foo` is followed by `+`, not an opening quote. -/
theorem C10_at_requires_quote_witness :
    (newTokenizer "@foo+").input.get? (newTokenizer "@foo+").pos = some '@' ∧
    (((((newTokenizer "@foo+").consumeAtAndTag).2.peek).map
        isOpeningQuoteChar).getD false) = false ∧
    ∃ msg, (newTokenizer "@foo+").nextToken = .err msg (newTokenizer "@foo+") :=
  ⟨rfl, by decide, C10_at_requires_quote (newTokenizer "@foo+") rfl (by decide)⟩

/-- C9 (code bug, evaluation): tokenizing `return` panics — the
`CustomPrefix` branch of `matchCustomRules` casts the `nil` payload stored
by `BuildTokenLookup` for prefix rules — so `Tokenize` crashes instead of
returning a token vector. -/
theorem C9_prefix_crash :
    runCrashed "return" = true ∧
    runErr "return" =
      some "interface conversion: interface is nil, not PrefixTokenData" := by
  decide

end Nutmeg
